import Mathlib

/-!
Shallow embedding of the Game of Life core from `src/game_of_life.rs` and
the UI emission guard from `src/ui.rs` (dandn9/game_of_life).

The board is Bevy's `Image`: a raw RGBA byte buffer `data` together with its
pixel dimensions (`width` = rows = size.x, `height` = columns = size.y).
Bytes are modelled as `Nat` (all written values come from `u8` color
components, and the code only ever compares them for equality).  Machine
floats appear in the source only in places where they are exact on the
relevant integer ranges (centering divisions by 2, the brush distance test,
the cell-index division); these are modelled by the corresponding exact
integer operations, as noted at each definition.
-/

set_option maxRecDepth 100000

namespace GoL

----------------------------------------------------------------------
-- Definitions (embedding of the source, spec-side vocabulary,
-- and concrete boards/settings used by witnesses and counterexamples)
----------------------------------------------------------------------
/-- One RGBA color, the four `u8` channels of a cell (`[u8; 4]` in the source). -/
structure Rgba where
  r : Nat
  g : Nat
  b : Nat
  a : Nat
deriving DecidableEq, Repr

/-- The component list `[r, g, b, a]` of a color. -/
def Rgba.bytes (c : Rgba) : List Nat := [c.r, c.g, c.b, c.a]

/-- `enum Seed` from the source. -/
inductive Seed where
  | Random
  | Spaceship
  | GosperGliderGun
  | SimkinGliderGun
deriving DecidableEq, Repr

/-- `enum State` from the source. -/
inductive State where
  | ALIVE
  | DEAD
deriving DecidableEq, Repr

/-- `struct GameSettings` from the source.  `time_step_secs` is an `f32`
the core never computes with (it only gates the tick clock), modelled as a
rational. -/
structure GameSettings where
  cell_size : Nat
  time_step_secs : Rat
  alive_color : Rgba
  dead_color : Rgba
  seed : Seed
deriving DecidableEq, Repr

/-- Bevy's `Image` as used by the code: `width`/`height` are `size().x` /
`size().y` (rows and columns of cells), `data` the raw byte buffer. -/
@[ext]
structure Image where
  width : Nat
  height : Nat
  data : List Nat
deriving DecidableEq, Repr

/-- Reads the four bytes at offsets `c .. c+3` of a buffer (out-of-range
reads default to 0; the source indexes only in range under the buffer
length invariant). -/
def readColorAt (d : List Nat) (c : Nat) : Rgba :=
  ⟨d.getD c 0, d.getD (c + 1) 0, d.getD (c + 2) 0, d.getD (c + 3) 0⟩

/-- Writes the four bytes of `col` at offsets `c .. c+3`, mirroring the
source's four consecutive byte assignments. -/
def writeColorAt (d : List Nat) (c : Nat) (col : Rgba) : List Nat :=
  ((((d.set c col.r).set (c + 1) col.g).set (c + 2) col.b).set (c + 3) col.a)

/-- `State::cell_state` from the source: a cell is `ALIVE` iff its four
bytes are each equal to the corresponding byte of `settings.alive_color`. -/
def State.cell_state (data : Rgba) (settings : GameSettings) : State :=
  if data.r = settings.alive_color.r ∧ data.g = settings.alive_color.g ∧
      data.b = settings.alive_color.b ∧ data.a = settings.alive_color.a then
    State.ALIVE
  else
    State.DEAD

/-- `Image::get_pixel` from the source (trait `Pixel`): bounds-checked read
of the 4 bytes of cell `(x, y)` at byte position `(y * size.x + x) * 4`. -/
def Image.get_pixel (img : Image) (x y : Int) : Option Rgba :=
  if (img.width : Int) ≤ x ∨ x < 0 ∨ (img.height : Int) ≤ y ∨ y < 0 then
    none
  else
    some (readColorAt img.data ((y * img.width + x) * 4).toNat)

/-- One iteration of the neighbour loop body in the source's `cell_state`:
adds 1 to the running count when the neighbour at offset `(nx, ny)` is
on-grid and alive. -/
def neighbour_add (img : Image) (settings : GameSettings) (x y : Int)
    (n : Nat) (nx ny : Int) : Nat :=
  match img.get_pixel (x + nx) (y + ny) with
  | some c =>
    match State.cell_state c settings with
    | State.ALIVE => n + 1
    | State.DEAD => n
  | none => n

/-- The neighbour count loop of `cell_state` in the source: `nx` ranges
over `-1..=1` (outer), `ny` over `-1..=1` (inner), the center `(0,0)` is
skipped, off-grid neighbours (`get_pixel` returning `None`) do not count. -/
def neighbour_count (img : Image) (x y : Int) (settings : GameSettings) : Nat :=
  neighbour_add img settings x y
    (neighbour_add img settings x y
      (neighbour_add img settings x y
        (neighbour_add img settings x y
          (neighbour_add img settings x y
            (neighbour_add img settings x y
              (neighbour_add img settings x y
                (neighbour_add img settings x y 0 (-1) (-1)) (-1) 0) (-1) 1)
            0 (-1)) 0 1) 1 (-1)) 1 0) 1 1

/-- The free function `cell_state` from the source: evaluates the Game of
Life rule for cell `(x, y)` against the (frozen) image (the source binds
`neighbours_alive` once; here the count is written out at each use).  The
source `unwrap`s the center read; it is only called at in-grid coordinates,
where the read succeeds, so the `none` branch is unreachable there. -/
def cell_state (img : Image) (x y : Int) (settings : GameSettings) : State :=
  match img.get_pixel x y with
  | none => State.DEAD
  | some c =>
    match State.cell_state c settings with
    | State.ALIVE =>
      if neighbour_count img x y settings < 2 then State.DEAD
      else if neighbour_count img x y settings = 2 ∨
          neighbour_count img x y settings = 3 then State.ALIVE
      else State.DEAD
    | State.DEAD =>
      if neighbour_count img x y settings = 3 then State.ALIVE
      else State.DEAD

/-- The advance pass of the `process_cells` system (after its tick-clock
gate): for every cell index `i`, the new state is computed from the frozen
input image and written into the `next_state` buffer (initialized as a
clone of `board.data`; every cell byte is overwritten below), which then
replaces `board.data`.  The source computes `y = floor(i / rows)` in `f32`
(exact for the integer ranges of real boards) and `x = i - y * rows`. -/
def process_cells (img : Image) (settings : GameSettings) : Image :=
  let data' := (List.range (img.data.length / 4)).foldl
    (fun next i =>
      let c := i * 4
      let y := i / img.width
      let x := i - y * img.width
      match cell_state img (x : Int) (y : Int) settings with
      | State.ALIVE => writeColorAt next c settings.alive_color
      | State.DEAD => writeColorAt next c settings.dead_color)
    img.data
  { img with data := data' }

/-- The `UIEvent::ChangeColor` branch of `handle_ui_events`: each cell of
the buffer is classified (in place; each cell is read just before it is
written, and no other cell's bytes are read) against the *old* settings,
alive cells are rewritten to the new alive color and all others to the new
dead color, and the settings colors are updated only after the loop. -/
def change_color (img : Image) (settings : GameSettings)
    (alive_color dead_color : Rgba) : Image × GameSettings :=
  let data' := (List.range (img.data.length / 4)).foldl
    (fun d i =>
      let c := i * 4
      match State.cell_state (readColorAt d c) settings with
      | State.ALIVE => writeColorAt d c alive_color
      | State.DEAD => writeColorAt d c dead_color)
    img.data
  ({ img with data := data' },
   { settings with alive_color := alive_color, dead_color := dead_color })

/-- The `ChangeColor` emission site in `egui_init` (src/ui.rs, lines
128-138): the event is sent only when the picked colors differ from the
current settings and the new alive and dead colors are distinct. -/
def egui_change_color_event (settings : GameSettings)
    (alive_c dead_c : Rgba) : Option (Rgba × Rgba) :=
  if (alive_c ≠ settings.alive_color ∨ dead_c ≠ settings.dead_color) ∧
      alive_c ≠ dead_c then
    some (alive_c, dead_c)
  else
    none

/-- `reset_board` from the source: every cell is set to the dead color. -/
def reset_board (img : Image) (settings : GameSettings) : Image :=
  let data' := (List.range (img.data.length / 4)).foldl
    (fun d i => writeColorAt d (i * 4) settings.dead_color)
    img.data
  { img with data := data' }

/-- The per-value byte expansion inside `gun_to_buff_values`: a pattern `1`
pushes the four alive-color bytes, anything else the four dead-color bytes. -/
def color_bytes (settings : GameSettings) (v : Nat) : List Nat :=
  if v = 1 then settings.alive_color.bytes else settings.dead_color.bytes

/-- The closure `gun_to_buff_values` from `seed`: each pattern row is
flattened into its byte representation (the source builds the same lists
with push loops). -/
def gun_to_buff_values (settings : GameSettings) (gun : List (List Nat)) :
    List (List Nat) :=
  gun.map (fun row => row.flatMap (color_bytes settings))

/-- The 9 x 36 Gosper glider gun matrix from `seed`. -/
def glider_gun_gosper : List (List Nat) := [
  [0,0,0,0,0,0,0,0,0,0,0,0,0,0,0,0,0,0,0,0,0,0,0,0,1,0,0,0,0,0,0,0,0,0,0,0],
  [0,0,0,0,0,0,0,0,0,0,0,0,0,0,0,0,0,0,0,0,0,0,1,0,1,0,0,0,0,0,0,0,0,0,0,0],
  [0,0,0,0,0,0,0,0,0,0,0,0,1,1,0,0,0,0,0,0,1,1,0,0,0,0,0,0,0,0,0,0,0,0,1,1],
  [0,0,0,0,0,0,0,0,0,0,0,1,0,0,0,1,0,0,0,0,1,1,0,0,0,0,0,0,0,0,0,0,0,0,1,1],
  [1,1,0,0,0,0,0,0,0,0,1,0,0,0,0,0,1,0,0,0,1,1,0,0,0,0,0,0,0,0,0,0,0,0,0,0],
  [1,1,0,0,0,0,0,0,0,0,1,0,0,0,1,0,1,1,0,0,0,0,1,0,1,0,0,0,0,0,0,0,0,0,0,0],
  [0,0,0,0,0,0,0,0,0,0,1,0,0,0,0,0,1,0,0,0,0,0,0,0,1,0,0,0,0,0,0,0,0,0,0,0],
  [0,0,0,0,0,0,0,0,0,0,0,1,0,0,0,1,0,0,0,0,0,0,0,0,0,0,0,0,0,0,0,0,0,0,0,0],
  [0,0,0,0,0,0,0,0,0,0,0,0,1,1,0,0,0,0,0,0,0,0,0,0,0,0,0,0,0,0,0,0,0,0,0,0]]

/-- The 20 x 33 Simkin glider gun matrix from `seed`. -/
def glider_gun_simkin : List (List Nat) := [
  [1,1,0,0,0,0,0,1,1,0,0,0,0,0,0,0,0,0,0,0,0,0,0,0,0,0,0,0,0,0,0,0,0],
  [1,1,0,0,0,0,0,1,1,0,0,0,0,0,0,0,0,0,0,0,0,0,0,0,0,0,0,0,0,0,0,0,0],
  [0,0,0,0,0,0,0,0,0,0,0,0,0,0,0,0,0,0,0,0,0,0,0,0,0,0,0,0,0,0,0,0,0],
  [0,0,0,0,1,1,0,0,0,0,0,0,0,0,0,0,0,0,0,0,0,0,0,0,0,0,0,0,0,0,0,0,0],
  [0,0,0,0,1,1,0,0,0,0,0,0,0,0,0,0,0,0,0,0,0,0,0,0,0,0,0,0,0,0,0,0,0],
  [0,0,0,0,0,0,0,0,0,0,0,0,0,0,0,0,0,0,0,0,0,0,0,0,0,0,0,0,0,0,0,0,0],
  [0,0,0,0,0,0,0,0,0,0,0,0,0,0,0,0,0,0,0,0,0,0,0,0,0,0,0,0,0,0,0,0,0],
  [0,0,0,0,0,0,0,0,0,0,0,0,0,0,0,0,0,0,0,0,0,0,0,0,0,0,0,0,0,0,0,0,0],
  [0,0,0,0,0,0,0,0,0,0,0,0,0,0,0,0,0,0,0,0,0,0,0,0,0,0,0,0,0,0,0,0,0],
  [0,0,0,0,0,0,0,0,0,0,0,0,0,0,0,0,0,0,0,0,0,0,1,1,0,1,1,0,0,0,0,0,0],
  [0,0,0,0,0,0,0,0,0,0,0,0,0,0,0,0,0,0,0,0,0,1,0,0,0,0,0,1,0,0,0,0,0],
  [0,0,0,0,0,0,0,0,0,0,0,0,0,0,0,0,0,0,0,0,0,1,0,0,0,0,0,0,1,0,0,1,1],
  [0,0,0,0,0,0,0,0,0,0,0,0,0,0,0,0,0,0,0,0,0,1,1,1,0,0,0,1,0,0,0,1,1],
  [0,0,0,0,0,0,0,0,0,0,0,0,0,0,0,0,0,0,0,0,0,0,0,0,0,0,1,0,0,0,0,0,0],
  [0,0,0,0,0,0,0,0,0,0,0,0,0,0,0,0,0,0,0,0,0,0,0,0,0,0,0,0,0,0,0,0,0],
  [0,0,0,0,0,0,0,0,0,0,0,0,0,0,0,0,0,0,0,0,0,0,0,0,0,0,0,0,0,0,0,0,0],
  [0,0,0,0,0,0,0,0,0,0,0,0,0,0,0,0,0,0,0,0,0,0,0,0,0,0,0,0,0,0,0,0,0],
  [0,0,0,0,0,0,0,0,0,0,0,0,0,0,0,0,0,0,0,0,0,0,0,0,0,0,0,0,0,0,0,0,0],
  [0,0,0,0,0,0,0,0,0,0,0,0,0,0,0,0,0,0,0,0,0,0,0,0,1,0,1,1,0,0,0,0,0],
  [0,0,0,0,0,0,0,0,0,0,0,0,0,0,0,0,0,0,0,0,0,0,0,0,1,1,0,1,0,0,0,0,0]]

/-- The glider-gun placement loop shared by the `GosperGliderGun` and
`SimkinGliderGun` branches of `seed`: the pattern's bounding box is
centered (`center = board_size / 2` with `as usize` truncation, exact in
`f32` for real board sizes), and for every box cell the four bytes of the
corresponding pattern value are written at byte offset
`i * width * 4 + j * 4`.  The source iterates `i` in `y_start..y_end` with
a row counter `yy` starting at 0 and a byte counter `xx` stepping by 4 per
column; here `i = y_start + yy` and `xx = jj * 4`.  The source's `usize`
subtractions underflow (and the buffer indexing panics) when the board is
smaller than the pattern; `Nat` subtraction instead truncates, so the model
is faithful only on boards at least as large as the pattern, which is the
precondition the spec states. -/
def seed_gun (img : Image) (settings : GameSettings) (gun : List (List Nat)) :
    Image :=
  let values := gun_to_buff_values settings gun
  let offset_y := if gun.length % 2 ≠ 0 then 1 else 0
  let offset_x := if (gun.headD []).length % 2 ≠ 0 then 1 else 0
  let cx := img.width / 2
  let cy := img.height / 2
  let x_start := cx - (gun.headD []).length / 2
  let x_end := cx + (gun.headD []).length / 2 + offset_x
  let y_start := cy - gun.length / 2
  let y_end := cy + gun.length / 2 + offset_y
  let data' := (List.range (y_end - y_start)).foldl
    (fun d yy =>
      (List.range (x_end - x_start)).foldl
        (fun d jj =>
          let i := y_start + yy
          let j := x_start + jj
          let offset := i * img.width * 4 + j * 4
          let row := values.getD yy []
          ((((d.set offset (row.getD (jj * 4) 0)).set (offset + 1)
              (row.getD (jj * 4 + 1) 0)).set (offset + 2)
              (row.getD (jj * 4 + 2) 0)).set (offset + 3)
              (row.getD (jj * 4 + 3) 0)))
        d)
    img.data
  { img with data := data' }

/-- The `Seed::Random` branch of `seed`: `rand i` models whether the `i`-th
sample of `thread_rng` satisfies `rand >= 0.5`; selected cells get the four
alive-color bytes, all other bytes are untouched. -/
def seed_random (img : Image) (settings : GameSettings) (rand : Nat → Bool) :
    Image :=
  let data' := (List.range (img.data.length / 4)).foldl
    (fun d i => if rand i then writeColorAt d (i * 4) settings.alive_color else d)
    img.data
  { img with data := data' }

/-- `seed` from the source: dispatch on `settings.seed`.  The `Spaceship`
value falls into the catch-all `_ => {}` arm and does nothing. -/
def seed (img : Image) (settings : GameSettings) (rand : Nat → Bool) : Image :=
  match settings.seed with
  | Seed.Random => seed_random img settings rand
  | Seed.GosperGliderGun => seed_gun img settings glider_gun_gosper
  | Seed.SimkinGliderGun => seed_gun img settings glider_gun_simkin
  | Seed.Spaceship => img

/-- `create_board` from the source: `rows = floor(width / cell_size)` and
`columns = floor(height / cell_size)` (`f32` division of integral window
dimensions, exact for real viewports, modelled as `Nat` division), and a
fresh image filled with the dead color (`Image::new_fill`). -/
def create_board (settings : GameSettings) (win_width win_height : Nat) :
    Image × Nat × Nat :=
  let rows := win_width / settings.cell_size
  let columns := win_height / settings.cell_size
  (⟨rows, columns,
    (List.range (rows * columns)).flatMap (fun _ => settings.dead_color.bytes)⟩,
   rows, columns)

/-- The `UIEvent::ChangeCellSize` branch of `handle_ui_events`: the old
board is dropped, `settings.cell_size` is updated first, a fresh board is
created from the viewport and seeded with the current seed kind, and the
board handle, dimensions and settings are replaced together (the returned
tuple). -/
def change_cell_size (settings : GameSettings) (win_width win_height : Nat)
    (cell_size : Nat) (rand : Nat → Bool) : Image × Nat × Nat × GameSettings :=
  let settings' := { settings with cell_size := cell_size }
  let new_board := create_board settings' win_width win_height
  (seed new_board.1 settings' rand, new_board.2.1, new_board.2.2, settings')

/-- The data effect of writing a cell through `Image::get_pixel_mut` plus
the four pointer stores in `handle_events`: bounds-checked; out of range is
a silent no-op. -/
def set_pixel_data (width height : Nat) (d : List Nat) (x y : Int)
    (col : Rgba) : List Nat :=
  if (width : Int) ≤ x ∨ x < 0 ∨ (height : Int) ≤ y ∨ y < 0 then
    d
  else
    writeColorAt d ((y * width + x) * 4).toNat col

/-- `Image::get_pixel_mut` + the writes, at the image level (the image
dimensions are untouched by painting). -/
def Image.set_pixel (img : Image) (x y : Int) (col : Rgba) : Image :=
  { img with data := set_pixel_data img.width img.height img.data x y col }

/-- The painting loop of `handle_events` on the raw buffer: `bx` (outer)
and `by` (inner) range over `-(size)..=size` (here `bx = bi - size` with
`bi` over `0..2*size`), and the brush writes the alive color through the
bounds-checked pixel access whenever `sqrt((x-posx)^2 + (y-posy)^2) <=
size` holds in `f32`.  For `size <= 255` the squared integers are exact in
`f32` and its square root is correctly rounded, so the test is exactly
`(x-posx)^2 + (y-posy)^2 <= size^2`. -/
def paint_data (width height : Nat) (settings : GameSettings)
    (posx posy : Int) (size : Nat) (d0 : List Nat) : List Nat :=
  (List.range (2 * size + 1)).foldl
    (fun d (bi : Nat) =>
      (List.range (2 * size + 1)).foldl
        (fun d (bj : Nat) =>
          let bx : Int := (bi : Int) - (size : Int)
          let by_ : Int := (bj : Int) - (size : Int)
          let x := posx + bx
          let y := posy + by_
          if (x - posx) ^ 2 + (y - posy) ^ 2 ≤ (size : Int) ^ 2 then
            set_pixel_data width height d x y settings.alive_color
          else
            d)
        d)
    d0

/-- The painting portion of `handle_events` (after the egui pointer-capture
and cursor checks, with `posx`/`posy` the already-mapped board coordinates
of the cursor). -/
def paint (img : Image) (settings : GameSettings) (posx posy : Int)
    (size : Nat) : Image :=
  { img with data := paint_data img.width img.height settings posx posy size img.data }

----------------------------------------------------------------------
-- Specification-side definitions (the claims' vocabulary)
----------------------------------------------------------------------

/-- A cell `(x, y)` (in grid coordinates) is alive: its four buffer bytes
are exactly the current alive color. -/
def aliveCell (img : Image) (settings : GameSettings) (x y : Nat) : Prop :=
  readColorAt img.data ((y * img.width + x) * 4) = settings.alive_color

instance (img : Image) (settings : GameSettings) (x y : Nat) :
    Decidable (aliveCell img settings x y) := by
  unfold aliveCell; infer_instance

/-- A signed coordinate denotes an on-grid, alive cell. -/
def specAliveI (img : Image) (settings : GameSettings) (x y : Int) : Prop :=
  0 ≤ x ∧ x < (img.width : Int) ∧ 0 ≤ y ∧ y < (img.height : Int) ∧
    aliveCell img settings x.toNat y.toNat

instance (img : Image) (settings : GameSettings) (x y : Int) :
    Decidable (specAliveI img settings x y) := by
  unfold specAliveI; infer_instance

/-- The number of alive cells among the at-most-8 on-grid neighbours of
`(x, y)`; off-grid positions contribute 0. -/
def specNeighbours (img : Image) (settings : GameSettings) (x y : Int) : Nat :=
  (if specAliveI img settings (x - 1) (y - 1) then 1 else 0) +
  (if specAliveI img settings (x - 1) y then 1 else 0) +
  (if specAliveI img settings (x - 1) (y + 1) then 1 else 0) +
  (if specAliveI img settings x (y - 1) then 1 else 0) +
  (if specAliveI img settings x (y + 1) then 1 else 0) +
  (if specAliveI img settings (x + 1) (y - 1) then 1 else 0) +
  (if specAliveI img settings (x + 1) y then 1 else 0) +
  (if specAliveI img settings (x + 1) (y + 1) then 1 else 0)

/-- The Game of Life rule, stated from the spec: the next color of cell
`(x, y)` is the alive color iff the cell was alive with 2 or 3 alive
neighbours, or dead with exactly 3 alive neighbours. -/
def specNext (img : Image) (settings : GameSettings) (x y : Nat) : Rgba :=
  if (aliveCell img settings x y ∧
        (specNeighbours img settings x y = 2 ∨ specNeighbours img settings x y = 3)) ∨
     (¬ aliveCell img settings x y ∧ specNeighbours img settings x y = 3) then
    settings.alive_color
  else
    settings.dead_color

----------------------------------------------------------------------
-- A normal form for the mutation loops: a list of optional cell writes
----------------------------------------------------------------------

/-- Applies a list of cell writes to a buffer: entry `(i, some col)`
writes `col` at cell `i` (bytes `4*i .. 4*i+3`), entry `(i, none)` is a
skipped write. -/
def applyOptWrites (d : List Nat) (ws : List (Nat × Option Rgba)) : List Nat :=
  ws.foldl
    (fun d w =>
      match w.2 with
      | some col => writeColorAt d (w.1 * 4) col
      | none => d)
    d

----------------------------------------------------------------------
-- Folds over all cell indices
----------------------------------------------------------------------

/-- One step of a loop over all cell indices: optionally writes cell `i`. -/
def writeStep (g : Nat → Option Rgba) (d : List Nat) (i : Nat) : List Nat :=
  match g i with
  | some col => writeColorAt d (i * 4) col
  | none => d

----------------------------------------------------------------------
-- Characterization of the advance pass
----------------------------------------------------------------------

/-- The color the advance pass writes at cell index `i`. -/
def procColor (img : Image) (settings : GameSettings) (i : Nat) : Rgba :=
  match cell_state img ((i - i / img.width * img.width : Nat) : Int)
      ((i / img.width : Nat) : Int) settings with
  | State.ALIVE => settings.alive_color
  | State.DEAD => settings.dead_color

/-- A 2 x 1 board whose two cells hold garbage colors (neither the alive
nor the dead color of `witness_settings`). -/
def witness_img : Image := ⟨2, 1, [9, 9, 9, 9, 1, 2, 3, 4]⟩

/-- Concrete settings used by witnesses: alive `[1,2,3,4]`, dead `[0,0,0,0]`. -/
def witness_settings : GameSettings := ⟨3, 1, ⟨1, 2, 3, 4⟩, ⟨0, 0, 0, 0⟩, Seed.Random⟩

----------------------------------------------------------------------
-- Characterization of the ChangeColor loop
----------------------------------------------------------------------

/-- The cell rewrite ChangeColor performs, as a function of the old cell
color: alive cells (under the old settings) get the new alive color, all
others the new dead color. -/
def recolor (settings : GameSettings) (alive_color dead_color c : Rgba) : Rgba :=
  match State.cell_state c settings with
  | State.ALIVE => alive_color
  | State.DEAD => dead_color

/-- The first `m` iterations of the ChangeColor loop body. -/
def change_color_loop (settings : GameSettings) (alive_color dead_color : Rgba)
    (d0 : List Nat) (m : Nat) : List Nat :=
  (List.range m).foldl
    (fun d i =>
      match State.cell_state (readColorAt d (i * 4)) settings with
      | State.ALIVE => writeColorAt d (i * 4) alive_color
      | State.DEAD => writeColorAt d (i * 4) dead_color)
    d0

/-- The color used by the C2 counterexample for both the new alive and the
new dead color. -/
def c2_color : Rgba := ⟨9, 9, 9, 9⟩

----------------------------------------------------------------------
-- Characterization of the glider-gun placement
----------------------------------------------------------------------

/-- The pattern value of a gun matrix at row `yy`, column `jj`. -/
def gunVal (gun : List (List Nat)) (yy jj : Nat) : Nat :=
  (gun.getD yy []).getD jj 0

/-- The color the placement loop writes for pattern cell `(jj, yy)`. -/
def gunColor (settings : GameSettings) (gun : List (List Nat)) (yy jj : Nat) : Rgba :=
  if gunVal gun yy jj = 1 then settings.alive_color else settings.dead_color

/-- `x_start` of the placement box (`center.x - pattern_width / 2`). -/
def gun_x_start (img : Image) (gun : List (List Nat)) : Nat :=
  img.width / 2 - (gun.headD []).length / 2

/-- `x_end - x_start` of the placement box. -/
def gun_x_len (img : Image) (gun : List (List Nat)) : Nat :=
  img.width / 2 + (gun.headD []).length / 2 +
    (if (gun.headD []).length % 2 ≠ 0 then 1 else 0) -
    (img.width / 2 - (gun.headD []).length / 2)

/-- `y_start` of the placement box (`center.y - pattern_height / 2`). -/
def gun_y_start (img : Image) (gun : List (List Nat)) : Nat :=
  img.height / 2 - gun.length / 2

/-- `y_end - y_start` of the placement box. -/
def gun_y_len (img : Image) (gun : List (List Nat)) : Nat :=
  img.height / 2 + gun.length / 2 +
    (if gun.length % 2 ≠ 0 then 1 else 0) -
    (img.height / 2 - gun.length / 2)

/-- The list of cell writes the placement loop performs, row-major. -/
def gunWrites (img : Image) (settings : GameSettings) (gun : List (List Nat)) :
    List (Nat × Option Rgba) :=
  (List.range (gun_y_len img gun)).flatMap (fun yy =>
    (List.range (gun_x_len img gun)).map (fun jj =>
      ((gun_y_start img gun + yy) * img.width + (gun_x_start img gun + jj),
       some (readColorAt ((gun_to_buff_values settings gun).getD yy []) (jj * 4)))))

/-- A 36 x 11 board fully filled with the garbage color `[7,7,7,7]`. -/
def c3_img : Image :=
  ⟨36, 11, (List.range (36 * 11)).flatMap (fun _ => (⟨7, 7, 7, 7⟩ : Rgba).bytes)⟩

/-- Settings whose seed kind is the Gosper glider gun. -/
def c3_settings : GameSettings := ⟨3, 1, ⟨1, 2, 3, 4⟩, ⟨0, 0, 0, 0⟩, Seed.GosperGliderGun⟩

/-- A 36 x 9 board fully filled with the dead color `[0,0,0,0]`. -/
def c3_witness_img : Image :=
  ⟨36, 9, (List.range (36 * 9)).flatMap (fun _ => (⟨0, 0, 0, 0⟩ : Rgba).bytes)⟩

/-- The set of cells a reseed with the current seed kind writes, on a
`w x h` board: the randomly selected cells for `Random`, the pattern's
bounding box for the two guns, and nothing for the unimplemented
`Spaceship`. -/
def seedWritten (settings : GameSettings) (w h : Nat) (rand : Nat → Bool)
    (x y : Nat) : Prop :=
  match settings.seed with
  | Seed.Random => rand (y * w + x) = true
  | Seed.Spaceship => False
  | Seed.GosperGliderGun =>
      w / 2 - 36 / 2 ≤ x ∧ x < w / 2 - 36 / 2 + 36 ∧
      h / 2 - 9 / 2 ≤ y ∧ y < h / 2 - 9 / 2 + 9
  | Seed.SimkinGliderGun =>
      w / 2 - 33 / 2 ≤ x ∧ x < w / 2 - 33 / 2 + 33 ∧
      h / 2 - 20 / 2 ≤ y ∧ y < h / 2 - 20 / 2 + 20

/-- The cell writes of one painting pass, row-major over the brush square:
offsets inside the brush circle whose target is on-grid write the alive
color; all other iterations write nothing. -/
def paintWrites (width height : Nat) (settings : GameSettings)
    (posx posy : Int) (size : Nat) : List (Nat × Option Rgba) :=
  (List.range (2 * size + 1)).flatMap (fun (bi : Nat) =>
    (List.range (2 * size + 1)).map (fun (bj : Nat) =>
      if ((posx + ((bi : Int) - (size : Int)) - posx) ^ 2 +
            (posy + ((bj : Int) - (size : Int)) - posy) ^ 2 ≤ (size : Int) ^ 2) ∧
         ¬ ((width : Int) ≤ posx + ((bi : Int) - (size : Int)) ∨
            posx + ((bi : Int) - (size : Int)) < 0 ∨
            (height : Int) ≤ posy + ((bj : Int) - (size : Int)) ∨
            posy + ((bj : Int) - (size : Int)) < 0) then
        ((posy + ((bj : Int) - (size : Int))).toNat * width +
           (posx + ((bi : Int) - (size : Int))).toNat,
         some settings.alive_color)
      else (0, none)))

----------------------------------------------------------------------
-- Blinker boards and the period-2 property
----------------------------------------------------------------------

/-- A horizontal 3-cell line centered at `(cx, cy)`. -/
def hlineP (cx cy u v : Int) : Prop :=
  v = cy ∧ (u = cx - 1 ∨ u = cx ∨ u = cx + 1)

/-- A vertical 3-cell line centered at `(cx, cy)`. -/
def vlineP (cx cy u v : Int) : Prop :=
  u = cx ∧ (v = cy - 1 ∨ v = cy ∨ v = cy + 1)

instance (cx cy u v : Int) : Decidable (hlineP cx cy u v) := by
  unfold hlineP
  infer_instance

instance (cx cy u v : Int) : Decidable (vlineP cx cy u v) := by
  unfold vlineP
  infer_instance

/-- The number of neighbours of `(x, y)` (among the 8 offsets) in a
pattern `P`. -/
def patCount (P : Int → Int → Prop) [inst : ∀ u v, Decidable (P u v)]
    (x y : Int) : Nat :=
  (if P (x - 1) (y - 1) then 1 else 0) +
  (if P (x - 1) y then 1 else 0) +
  (if P (x - 1) (y + 1) then 1 else 0) +
  (if P x (y - 1) then 1 else 0) +
  (if P x (y + 1) then 1 else 0) +
  (if P (x + 1) (y - 1) then 1 else 0) +
  (if P (x + 1) y then 1 else 0) +
  (if P (x + 1) (y + 1) then 1 else 0)

/-- A 5 x 5 board containing exactly a horizontal blinker centered at
`(2, 2)`, with the witness settings' alive and dead colors. -/
def blinker_img : Image :=
  ⟨5, 5, (List.range 25).flatMap (fun i =>
    if i / 5 = 2 ∧ (i % 5 = 1 ∨ i % 5 = 2 ∨ i % 5 = 3) then
      (⟨1, 2, 3, 4⟩ : Rgba).bytes
    else (⟨0, 0, 0, 0⟩ : Rgba).bytes)⟩

----------------------------------------------------------------------
-- Theorems
----------------------------------------------------------------------
----------------------------------------------------------------------
-- Byte-level buffer lemmas
----------------------------------------------------------------------

theorem getD_set_self (l : List Nat) (i : Nat) (a : Nat) (h : i < l.length) :
    (l.set i a).getD i 0 = a := by
  rw [List.getD_eq_getElem?_getD, List.getElem?_set_self h]
  rfl

theorem getD_set_ne (l : List Nat) {i j : Nat} (h : i ≠ j) (a : Nat) :
    (l.set i a).getD j 0 = l.getD j 0 := by
  rw [List.getD_eq_getElem?_getD, List.getElem?_set_ne h, ← List.getD_eq_getElem?_getD]

theorem length_writeColorAt (d : List Nat) (c : Nat) (col : Rgba) :
    (writeColorAt d c col).length = d.length := by
  simp [writeColorAt]

theorem getD_writeColorAt_outside (d : List Nat) (c : Nat) (col : Rgba)
    {b : Nat} (h : b < c ∨ c + 3 < b) :
    (writeColorAt d c col).getD b 0 = d.getD b 0 := by
  unfold writeColorAt
  rw [getD_set_ne _ (by omega), getD_set_ne _ (by omega),
    getD_set_ne _ (by omega), getD_set_ne _ (by omega)]

theorem readColorAt_writeColorAt_self (d : List Nat) (c : Nat) (col : Rgba)
    (h : c + 3 < d.length) :
    readColorAt (writeColorAt d c col) c = col := by
  obtain ⟨cr, cg, cb, ca⟩ := col
  unfold readColorAt writeColorAt
  simp only [Rgba.mk.injEq]
  refine ⟨?_, ?_, ?_, ?_⟩
  · rw [getD_set_ne _ (by omega), getD_set_ne _ (by omega), getD_set_ne _ (by omega),
      getD_set_self _ _ _ (by omega)]
  · rw [getD_set_ne _ (by omega), getD_set_ne _ (by omega),
      getD_set_self _ _ _ (by simp only [List.length_set]; omega)]
  · rw [getD_set_ne _ (by omega),
      getD_set_self _ _ _ (by simp only [List.length_set]; omega)]
  · rw [getD_set_self _ _ _ (by simp only [List.length_set]; omega)]

theorem readColorAt_writeColorAt_ne (d : List Nat) {c c2 : Nat} (col : Rgba)
    (h : c + 3 < c2 ∨ c2 + 3 < c) :
    readColorAt (writeColorAt d c col) c2 = readColorAt d c2 := by
  unfold readColorAt
  rw [getD_writeColorAt_outside d c col (by omega),
    getD_writeColorAt_outside d c col (by omega),
    getD_writeColorAt_outside d c col (by omega),
    getD_writeColorAt_outside d c col (by omega)]

theorem applyOptWrites_nil (d : List Nat) : applyOptWrites d [] = d := rfl

theorem applyOptWrites_cons (d : List Nat) (w : Nat × Option Rgba)
    (ws : List (Nat × Option Rgba)) :
    applyOptWrites d (w :: ws) =
      applyOptWrites
        (match w.2 with
         | some col => writeColorAt d (w.1 * 4) col
         | none => d) ws := rfl

theorem length_applyOptWrites (d : List Nat) (ws : List (Nat × Option Rgba)) :
    (applyOptWrites d ws).length = d.length := by
  induction ws generalizing d with
  | nil => rfl
  | cons w ws ih =>
    rw [applyOptWrites_cons]
    cases hw : w.2 with
    | none => simp only [hw]; exact ih d
    | some col => simp only [hw]; rw [ih, length_writeColorAt]

/-- A cell no entry writes to (every entry at its index is a skip) is left
unchanged. -/
theorem readColorAt_applyOptWrites_of_not_written (d : List Nat)
    (ws : List (Nat × Option Rgba)) (j : Nat)
    (hj : ∀ w ∈ ws, w.1 = j → w.2 = none) :
    readColorAt (applyOptWrites d ws) (j * 4) = readColorAt d (j * 4) := by
  induction ws generalizing d with
  | nil => rfl
  | cons w ws ih =>
    rw [applyOptWrites_cons]
    cases hw : w.2 with
    | none =>
      simp only [hw]
      exact ih d (fun w' hmem h' => hj w' (List.mem_cons_of_mem _ hmem) h')
    | some col =>
      simp only [hw]
      have hne : w.1 ≠ j := by
        intro h
        have := hj w (List.mem_cons_self _ _) h
        rw [hw] at this
        exact Option.noConfusion this
      rw [ih _ (fun w' hmem h' => hj w' (List.mem_cons_of_mem _ hmem) h'),
        readColorAt_writeColorAt_ne _ _ (by omega)]

/-- If cell `j` already holds `col` and every entry at `j` either skips or
rewrites `col`, the cell still holds `col` afterward. -/
theorem readColorAt_applyOptWrites_of_agree (d : List Nat)
    (ws : List (Nat × Option Rgba)) (j : Nat) (col : Rgba)
    (hd : readColorAt d (j * 4) = col)
    (hlen : j * 4 + 3 < d.length)
    (hj : ∀ w ∈ ws, w.1 = j → w.2 = none ∨ w.2 = some col) :
    readColorAt (applyOptWrites d ws) (j * 4) = col := by
  induction ws generalizing d with
  | nil => exact hd
  | cons w ws ih =>
    rw [applyOptWrites_cons]
    cases hw : w.2 with
    | none =>
      simp only [hw]
      exact ih d hd hlen (fun w' hmem h' => hj w' (List.mem_cons_of_mem _ hmem) h')
    | some c2 =>
      simp only [hw]
      by_cases hjj : w.1 = j
      · have hc2 : c2 = col := by
          rcases hj w (List.mem_cons_self _ _) hjj with h | h
          · rw [hw] at h; exact Option.noConfusion h
          · rw [hw] at h; exact (Option.some.injEq _ _).mp h
        subst hc2 hjj
        refine ih _ ?_ ?_ (fun w' hmem h' => hj w' (List.mem_cons_of_mem _ hmem) h')
        · exact readColorAt_writeColorAt_self d _ _ (by omega)
        · rw [length_writeColorAt]; exact hlen
      · refine ih _ ?_ ?_ (fun w' hmem h' => hj w' (List.mem_cons_of_mem _ hmem) h')
        · rw [readColorAt_writeColorAt_ne _ _ (by omega)]; exact hd
        · rw [length_writeColorAt]; exact hlen

/-- A cell some entry writes `col` to — provided every entry at its index
either skips or writes that same `col` — holds `col` afterward. -/
theorem readColorAt_applyOptWrites_of_written (d : List Nat)
    (ws : List (Nat × Option Rgba)) (j : Nat) (col : Rgba)
    (hmem : (j, some col) ∈ ws)
    (hlen : j * 4 + 3 < d.length)
    (hj : ∀ w ∈ ws, w.1 = j → w.2 = none ∨ w.2 = some col) :
    readColorAt (applyOptWrites d ws) (j * 4) = col := by
  induction ws generalizing d with
  | nil => exact absurd hmem (List.not_mem_nil _)
  | cons w ws ih =>
    rw [applyOptWrites_cons]
    rcases List.mem_cons.mp hmem with heq | hmem'
    · rw [← heq]
      refine readColorAt_applyOptWrites_of_agree _ _ _ _ ?_ ?_
        (fun w' hm h' => hj w' (List.mem_cons_of_mem _ hm) h')
      · exact readColorAt_writeColorAt_self d _ _ (by omega)
      · rw [length_writeColorAt]; exact hlen
    · cases hw : w.2 with
      | none =>
        simp only [hw]
        exact ih d hmem' hlen (fun w' hm h' => hj w' (List.mem_cons_of_mem _ hm) h')
      | some c2 =>
        simp only [hw]
        refine ih _ hmem' ?_ (fun w' hm h' => hj w' (List.mem_cons_of_mem _ hm) h')
        rw [length_writeColorAt]; exact hlen

----------------------------------------------------------------------
-- Converting folds to write lists
----------------------------------------------------------------------

theorem foldl_writes_eq {α : Type} (l : List α) (d : List Nat)
    (f : α → Nat × Option Rgba) :
    l.foldl
      (fun d a =>
        match (f a).2 with
        | some col => writeColorAt d ((f a).1 * 4) col
        | none => d)
      d = applyOptWrites d (l.map f) := by
  rw [applyOptWrites, List.foldl_map]

theorem foldl_flatMap_eq {α β γ : Type} (l : List α) (f : α → List β)
    (g : γ → β → γ) (init : γ) :
    (l.flatMap f).foldl g init = l.foldl (fun acc a => (f a).foldl g acc) init := by
  induction l generalizing init with
  | nil => rfl
  | cons a l ih => rw [List.flatMap_cons, List.foldl_append, List.foldl_cons, ih]

theorem applyOptWrites_append (d : List Nat) (ws1 ws2 : List (Nat × Option Rgba)) :
    applyOptWrites d (ws1 ++ ws2) = applyOptWrites (applyOptWrites d ws1) ws2 :=
  List.foldl_append _ _ _ _

----------------------------------------------------------------------
-- Buffers built from 4-byte chunks
----------------------------------------------------------------------

theorem length_flatMap_four {α : Type} (g : α → List Nat)
    (hg : ∀ a, (g a).length = 4) (l : List α) :
    (l.flatMap g).length = 4 * l.length := by
  induction l with
  | nil => rfl
  | cons a l ih =>
    rw [List.flatMap_cons, List.length_append, ih, hg, List.length_cons]
    omega

theorem getD_flatMap_four {α : Type} (g : α → List Nat)
    (hg : ∀ a, (g a).length = 4) (l : List α) (a0 : α) :
    ∀ j, j < l.length → ∀ k, k < 4 →
      (l.flatMap g).getD (j * 4 + k) 0 = (g (l.getD j a0)).getD k 0 := by
  induction l with
  | nil => intro j hj; simp at hj
  | cons a l ih =>
    intro j hj k hk
    rw [List.flatMap_cons]
    match j with
    | 0 =>
      rw [List.getD_append _ _ _ _ (by rw [hg]; omega)]
      simp
    | j + 1 =>
      rw [List.getD_append_right _ _ _ _ (by rw [hg]; omega)]
      have harith : (j + 1) * 4 + k - (g a).length = j * 4 + k := by rw [hg]; omega
      rw [harith, ih j (by simpa using hj) k hk]
      rfl

theorem length_bytes (c : Rgba) : c.bytes.length = 4 := rfl

/-- Reading cell `j` of a buffer assembled from per-cell colors. -/
theorem readColorAt_flatMap_bytes {α : Type} (f : α → Rgba) (l : List α)
    (a0 : α) (j : Nat) (hj : j < l.length) :
    readColorAt (l.flatMap (fun a => (f a).bytes)) (j * 4) = f (l.getD j a0) := by
  have hg : ∀ a, ((fun a => (f a).bytes) a).length = 4 := fun a => rfl
  have h0 := getD_flatMap_four _ hg l a0 j hj 0 (by omega)
  have h1 := getD_flatMap_four _ hg l a0 j hj 1 (by omega)
  have h2 := getD_flatMap_four _ hg l a0 j hj 2 (by omega)
  have h3 := getD_flatMap_four _ hg l a0 j hj 3 (by omega)
  simp only [Nat.add_zero] at h0
  unfold readColorAt
  rw [h0, h1, h2, h3]
  rfl

----------------------------------------------------------------------
-- Glue: the source accessors versus the spec predicates
----------------------------------------------------------------------

theorem get_pixel_eq (img : Image) (x y : Int) :
    img.get_pixel x y =
      if 0 ≤ x ∧ x < (img.width : Int) ∧ 0 ≤ y ∧ y < (img.height : Int) then
        some (readColorAt img.data ((y.toNat * img.width + x.toNat) * 4))
      else
        none := by
  unfold Image.get_pixel
  by_cases h : 0 ≤ x ∧ x < (img.width : Int) ∧ 0 ≤ y ∧ y < (img.height : Int)
  · rw [if_neg (by omega), if_pos h]
    have heq : ((y * img.width + x) * 4).toNat = (y.toNat * img.width + x.toNat) * 4 := by
      obtain ⟨h1, h2, h3, h4⟩ := h
      obtain ⟨xn, rfl⟩ := Int.eq_ofNat_of_zero_le h1
      obtain ⟨yn, rfl⟩ := Int.eq_ofNat_of_zero_le h3
      have hcast : ((yn : Int) * (img.width : Int) + (xn : Int)) * 4 =
          (((yn * img.width + xn) * 4 : Nat) : Int) := by
        push_cast
        ring
      rw [hcast, Int.toNat_natCast]
      simp
    rw [heq]
  · rw [if_pos (by omega), if_neg h]

theorem rgba_eq_iff (c d : Rgba) :
    c = d ↔ (c.r = d.r ∧ c.g = d.g ∧ c.b = d.b ∧ c.a = d.a) := by
  obtain ⟨r1, g1, b1, a1⟩ := c
  obtain ⟨r2, g2, b2, a2⟩ := d
  simp [Rgba.mk.injEq]

theorem cell_state_alive_iff (c : Rgba) (settings : GameSettings) :
    State.cell_state c settings = State.ALIVE ↔ c = settings.alive_color := by
  unfold State.cell_state
  split_ifs with h
  · exact iff_of_true rfl ((rgba_eq_iff c settings.alive_color).mpr h)
  · refine iff_of_false (by intro hcon; simp at hcon) ?_
    intro hc
    exact h ((rgba_eq_iff c settings.alive_color).mp hc)

theorem cell_state_eq_dead (c : Rgba) (settings : GameSettings)
    (h : c ≠ settings.alive_color) : State.cell_state c settings = State.DEAD := by
  cases hs : State.cell_state c settings
  · exact absurd ((cell_state_alive_iff c settings).mp hs) h
  · rfl

theorem get_pixel_alive_iff (img : Image) (settings : GameSettings) (x y : Int) :
    (∃ c, img.get_pixel x y = some c ∧ State.cell_state c settings = State.ALIVE) ↔
      specAliveI img settings x y := by
  rw [get_pixel_eq]
  unfold specAliveI aliveCell
  split_ifs with h
  · constructor
    · rintro ⟨c, hc, hal⟩
      obtain ⟨h1, h2, h3, h4⟩ := h
      refine ⟨h1, h2, h3, h4, ?_⟩
      rw [Option.some.inj hc]
      exact (cell_state_alive_iff c settings).mp hal
    · rintro ⟨h1, h2, h3, h4, h5⟩
      exact ⟨_, rfl, (cell_state_alive_iff _ settings).mpr h5⟩
  · constructor
    · rintro ⟨c, hc, _⟩; simp at hc
    · rintro ⟨h1, h2, h3, h4, _⟩; exact absurd ⟨h1, h2, h3, h4⟩ h

theorem neighbour_add_eq (img : Image) (settings : GameSettings) (x y : Int)
    (n : Nat) (nx ny : Int) :
    neighbour_add img settings x y n nx ny =
      n + (if specAliveI img settings (x + nx) (y + ny) then 1 else 0) := by
  cases hp : img.get_pixel (x + nx) (y + ny) with
  | none =>
    have hred : neighbour_add img settings x y n nx ny = n := by
      unfold neighbour_add
      rw [hp]
    rw [hred, if_neg]
    · rfl
    · intro hs
      obtain ⟨c, hc, _⟩ := (get_pixel_alive_iff img settings (x + nx) (y + ny)).mpr hs
      rw [hp] at hc
      simp at hc
  | some c =>
    have hred : neighbour_add img settings x y n nx ny =
        (match State.cell_state c settings with
         | State.ALIVE => n + 1
         | State.DEAD => n) := by
      unfold neighbour_add
      rw [hp]
    cases hs : State.cell_state c settings with
    | ALIVE =>
      rw [hred, hs,
        if_pos ((get_pixel_alive_iff img settings (x + nx) (y + ny)).mp ⟨c, hp, hs⟩)]
    | DEAD =>
      rw [hred, hs, if_neg]
      · rfl
      · intro hsp
        obtain ⟨c2, hc2, hal2⟩ := (get_pixel_alive_iff img settings (x + nx) (y + ny)).mpr hsp
        rw [hp] at hc2
        obtain rfl : c = c2 := Option.some.inj hc2
        rw [hs] at hal2
        simp at hal2

theorem neighbour_count_eq_spec (img : Image) (settings : GameSettings) (x y : Int) :
    neighbour_count img x y settings = specNeighbours img settings x y := by
  unfold neighbour_count specNeighbours
  rw [neighbour_add_eq, neighbour_add_eq, neighbour_add_eq, neighbour_add_eq,
    neighbour_add_eq, neighbour_add_eq, neighbour_add_eq, neighbour_add_eq]
  have e1 : x + -1 = x - 1 := by omega
  have e2 : y + -1 = y - 1 := by omega
  have e3 : x + 0 = x := by omega
  have e4 : y + 0 = y := by omega
  rw [e1, e2, e3, e4]
  omega

theorem cell_state_unfold (img : Image) (x y : Int) (settings : GameSettings)
    (c : Rgba) (hc : img.get_pixel x y = some c) :
    cell_state img x y settings =
      (match State.cell_state c settings with
       | State.ALIVE =>
         if neighbour_count img x y settings < 2 then State.DEAD
         else if neighbour_count img x y settings = 2 ∨
             neighbour_count img x y settings = 3 then State.ALIVE
         else State.DEAD
       | State.DEAD =>
         if neighbour_count img x y settings = 3 then State.ALIVE
         else State.DEAD) := by
  unfold cell_state
  rw [hc]

/-- The two branch shapes of the source rule, once the center cell has
been read and classified. -/
theorem cell_state_of_alive (img : Image) (x y : Int) (settings : GameSettings)
    (c : Rgba) (hc : img.get_pixel x y = some c)
    (hs : State.cell_state c settings = State.ALIVE) :
    cell_state img x y settings =
      (if neighbour_count img x y settings < 2 then State.DEAD
       else if neighbour_count img x y settings = 2 ∨
           neighbour_count img x y settings = 3 then State.ALIVE
       else State.DEAD) := by
  rw [cell_state_unfold img x y settings c hc, hs]

theorem cell_state_of_dead (img : Image) (x y : Int) (settings : GameSettings)
    (c : Rgba) (hc : img.get_pixel x y = some c)
    (hs : State.cell_state c settings = State.DEAD) :
    cell_state img x y settings =
      (if neighbour_count img x y settings = 3 then State.ALIVE
       else State.DEAD) := by
  rw [cell_state_unfold img x y settings c hc, hs]

/-- The source rule at an in-grid coordinate returns `ALIVE` exactly under
the spec's survival/birth condition. -/
theorem cell_state_alive_iff_rule (img : Image) (settings : GameSettings)
    (x y : Nat) (hx : x < img.width) (hy : y < img.height) :
    cell_state img (x : Int) (y : Int) settings = State.ALIVE ↔
      ((aliveCell img settings x y ∧
          (specNeighbours img settings x y = 2 ∨ specNeighbours img settings x y = 3)) ∨
       (¬ aliveCell img settings x y ∧ specNeighbours img settings x y = 3)) := by
  have hc : img.get_pixel (x : Int) (y : Int) =
      some (readColorAt img.data ((y * img.width + x) * 4)) := by
    rw [get_pixel_eq, if_pos]
    · have htn : (((y : Int)).toNat * img.width + ((x : Int)).toNat) =
          y * img.width + x := by
        rw [Int.toNat_natCast, Int.toNat_natCast]
      rw [htn]
    · refine ⟨by omega, by exact_mod_cast hx, by omega, by exact_mod_cast hy⟩
  by_cases hal : aliveCell img settings x y
  · rw [cell_state_of_alive img _ _ settings _ hc ((cell_state_alive_iff _ settings).mpr hal),
      neighbour_count_eq_spec]
    set n := specNeighbours img settings (x : Int) (y : Int) with hn
    by_cases h2 : n = 2 ∨ n = 3
    · rw [if_neg (by omega), if_pos h2]
      exact iff_of_true rfl (Or.inl ⟨hal, h2⟩)
    · by_cases hlt : n < 2
      · rw [if_pos hlt]
        refine iff_of_false (by simp) ?_
        rintro (⟨_, hcnt⟩ | ⟨hna, _⟩)
        · exact h2 hcnt
        · exact hna hal
      · rw [if_neg hlt, if_neg h2]
        refine iff_of_false (by simp) ?_
        rintro (⟨_, hcnt⟩ | ⟨hna, _⟩)
        · exact h2 hcnt
        · exact hna hal
  · rw [cell_state_of_dead img _ _ settings _ hc (cell_state_eq_dead _ _ hal),
      neighbour_count_eq_spec]
    set n := specNeighbours img settings (x : Int) (y : Int) with hn
    by_cases h3 : n = 3
    · rw [if_pos h3]
      exact iff_of_true rfl (Or.inr ⟨hal, h3⟩)
    · rw [if_neg h3]
      refine iff_of_false (by simp) ?_
      rintro (⟨ha, _⟩ | ⟨_, hcnt⟩)
      · exact hal ha
      · exact h3 hcnt

/-- What the source rule writes for an in-grid cell, in spec terms. -/
theorem cell_state_color_eq_spec (img : Image) (settings : GameSettings)
    (x y : Nat) (hx : x < img.width) (hy : y < img.height) :
    (match cell_state img (x : Int) (y : Int) settings with
     | State.ALIVE => settings.alive_color
     | State.DEAD => settings.dead_color) = specNext img settings x y := by
  unfold specNext
  cases hcs : cell_state img (x : Int) (y : Int) settings with
  | ALIVE =>
    rw [if_pos ((cell_state_alive_iff_rule img settings x y hx hy).mp hcs)]
  | DEAD =>
    rw [if_neg]
    intro hrule
    have := (cell_state_alive_iff_rule img settings x y hx hy).mpr hrule
    rw [hcs] at this
    exact State.noConfusion this

theorem length_writeStep (g : Nat → Option Rgba) (d : List Nat) (i : Nat) :
    (writeStep g d i).length = d.length := by
  unfold writeStep
  cases g i
  · rfl
  · rw [length_writeColorAt]

theorem foldl_writeStep_length (g : Nat → Option Rgba) (n : Nat) (d : List Nat) :
    ((List.range n).foldl (writeStep g) d).length = d.length := by
  induction n generalizing d with
  | zero => rfl
  | succ n ih =>
    rw [List.range_succ, List.foldl_append, List.foldl_cons, List.foldl_nil,
      length_writeStep, ih]

theorem foldl_writeStep_ge (g : Nat → Option Rgba) (n : Nat) (d : List Nat)
    (j : Nat) (hj : n ≤ j) :
    readColorAt ((List.range n).foldl (writeStep g) d) (j * 4) =
      readColorAt d (j * 4) := by
  induction n generalizing d with
  | zero => rfl
  | succ n ih =>
    rw [List.range_succ, List.foldl_append, List.foldl_cons, List.foldl_nil]
    cases hg : g n with
    | none =>
      have hstep : writeStep g ((List.range n).foldl (writeStep g) d) n =
          (List.range n).foldl (writeStep g) d := by
        unfold writeStep
        rw [hg]
      rw [hstep]
      exact ih d (by omega)
    | some col =>
      have hstep : writeStep g ((List.range n).foldl (writeStep g) d) n =
          writeColorAt ((List.range n).foldl (writeStep g) d) (n * 4) col := by
        unfold writeStep
        rw [hg]
      rw [hstep, readColorAt_writeColorAt_ne _ _ (by omega)]
      exact ih d (by omega)

theorem foldl_writeStep_lt (g : Nat → Option Rgba) (n : Nat) (d : List Nat)
    (j : Nat) (hj : j < n) (hlen : j * 4 + 3 < d.length) :
    readColorAt ((List.range n).foldl (writeStep g) d) (j * 4) =
      (match g j with
       | some col => col
       | none => readColorAt d (j * 4)) := by
  induction n generalizing d with
  | zero => omega
  | succ n ih =>
    rw [List.range_succ, List.foldl_append, List.foldl_cons, List.foldl_nil]
    by_cases hjn : j = n
    · subst hjn
      cases hg : g j with
      | none =>
        have hstep : writeStep g ((List.range j).foldl (writeStep g) d) j =
            (List.range j).foldl (writeStep g) d := by
          unfold writeStep
          rw [hg]
        rw [hstep]
        exact foldl_writeStep_ge g j d j (by omega)
      | some col =>
        have hstep : writeStep g ((List.range j).foldl (writeStep g) d) j =
            writeColorAt ((List.range j).foldl (writeStep g) d) (j * 4) col := by
          unfold writeStep
          rw [hg]
        rw [hstep]
        exact readColorAt_writeColorAt_self _ _ _
          (by rw [foldl_writeStep_length]; omega)
    · cases hg : g n with
      | none =>
        have hstep : writeStep g ((List.range n).foldl (writeStep g) d) n =
            (List.range n).foldl (writeStep g) d := by
          unfold writeStep
          rw [hg]
        rw [hstep]
        exact ih d (by omega) hlen
      | some col =>
        have hstep : writeStep g ((List.range n).foldl (writeStep g) d) n =
            writeColorAt ((List.range n).foldl (writeStep g) d) (n * 4) col := by
          unfold writeStep
          rw [hg]
        rw [hstep, readColorAt_writeColorAt_ne _ _ (by omega)]
        exact ih d (by omega) hlen

----------------------------------------------------------------------
-- Grid index arithmetic
----------------------------------------------------------------------

theorem cell_index_lt {w h x y : Nat} (hx : x < w) (hy : y < h) :
    y * w + x < w * h := by
  have h2 : (y + 1) * w ≤ h * w := Nat.mul_le_mul_right w (by omega)
  have h3 : (y + 1) * w = y * w + w := by ring
  have h4 : h * w = w * h := by ring
  omega

theorem cell_index_div {w x y : Nat} (hx : x < w) : (y * w + x) / w = y := by
  rw [Nat.mul_comm y w, Nat.mul_add_div (by omega), Nat.div_eq_of_lt hx]
  omega

theorem grid_index_inj {w x1 y1 x2 y2 : Nat} (h1 : x1 < w) (h2 : x2 < w)
    (heq : y1 * w + x1 = y2 * w + x2) : y1 = y2 ∧ x1 = x2 := by
  have e1 := cell_index_div (y := y1) h1
  have e2 := cell_index_div (y := y2) h2
  rw [heq] at e1
  have hy : y1 = y2 := by rw [← e1, e2]
  subst hy
  exact ⟨rfl, by omega⟩

theorem foldl_funext {α β : Type} {f g : β → α → β} (hfg : ∀ b a, f b a = g b a)
    (l : List α) (init : β) : l.foldl f init = l.foldl g init := by
  have h : f = g := funext fun b => funext fun a => hfg b a
  rw [h]

theorem process_cells_eq (img : Image) (settings : GameSettings) :
    process_cells img settings =
      { img with data := ((List.range (img.data.length / 4)).foldl
          (writeStep (fun i => some (procColor img settings i))) img.data) } := by
  unfold process_cells
  dsimp only
  congr 1
  apply foldl_funext
  intro d i
  show (match cell_state img ((i - i / img.width * img.width : Nat) : Int)
        ((i / img.width : Nat) : Int) settings with
      | State.ALIVE => writeColorAt d (i * 4) settings.alive_color
      | State.DEAD => writeColorAt d (i * 4) settings.dead_color) =
    writeColorAt d (i * 4) (procColor img settings i)
  unfold procColor
  cases cell_state img ((i - i / img.width * img.width : Nat) : Int)
      ((i / img.width : Nat) : Int) settings <;> rfl

theorem process_cells_width (img : Image) (settings : GameSettings) :
    (process_cells img settings).width = img.width := rfl

theorem process_cells_height (img : Image) (settings : GameSettings) :
    (process_cells img settings).height = img.height := rfl

theorem process_cells_length (img : Image) (settings : GameSettings) :
    (process_cells img settings).data.length = img.data.length := by
  rw [process_cells_eq]
  exact foldl_writeStep_length _ _ _

/-- The advance pass, cell by cell: the new color of every in-grid cell is
exactly the spec's rule applied to the frozen input board. -/
theorem advance_cells (img : Image) (settings : GameSettings)
    (hlen : img.data.length = img.width * img.height * 4)
    (x y : Nat) (hx : x < img.width) (hy : y < img.height) :
    readColorAt (process_cells img settings).data ((y * img.width + x) * 4) =
      specNext img settings x y := by
  have hn : img.data.length / 4 = img.width * img.height := by omega
  have hj : y * img.width + x < img.width * img.height := cell_index_lt hx hy
  rw [process_cells_eq]
  show readColorAt ((List.range (img.data.length / 4)).foldl
    (writeStep (fun i => some (procColor img settings i))) img.data)
    ((y * img.width + x) * 4) = _
  rw [hn, foldl_writeStep_lt _ _ _ _ hj (by omega)]
  show procColor img settings (y * img.width + x) = _
  unfold procColor
  have e1 : (y * img.width + x) / img.width = y := cell_index_div hx
  rw [e1]
  have e2 : y * img.width + x - y * img.width = x := by omega
  rw [e2]
  exact cell_state_color_eq_spec img settings x y hx hy

/-- Claim C1: one advance pass replaces every cell simultaneously from a
frozen snapshot of the prior generation: the new color of each in-grid
cell (x,y) is the alive color iff, in the old board, that cell was alive
(byte-equal to alive_color) with exactly 2 or 3 alive neighbours among its
at-most-8 on-grid neighbours, or was dead with exactly 3 alive neighbours;
off-grid neighbours count as dead, and no update observes another cell's
already-updated value (the right-hand side `specNext` reads only the old
board). -/
theorem claim_C1 (img : Image) (settings : GameSettings)
    (hlen : img.data.length = img.width * img.height * 4) :
    (process_cells img settings).width = img.width ∧
    (process_cells img settings).height = img.height ∧
    (process_cells img settings).data.length = img.data.length ∧
    ∀ x, x < img.width → ∀ y, y < img.height →
      readColorAt (process_cells img settings).data ((y * img.width + x) * 4) =
        specNext img settings x y :=
  ⟨rfl, rfl, process_cells_length img settings,
   fun x hx y hy => advance_cells img settings hlen x y hx hy⟩

theorem claim_C1_witness :
    (process_cells witness_img witness_settings).width = witness_img.width ∧
    (process_cells witness_img witness_settings).height = witness_img.height ∧
    (process_cells witness_img witness_settings).data.length = witness_img.data.length ∧
    ∀ x, x < witness_img.width → ∀ y, y < witness_img.height →
      readColorAt (process_cells witness_img witness_settings).data
          ((y * witness_img.width + x) * 4) =
        specNext witness_img witness_settings x y :=
  claim_C1 witness_img witness_settings (by decide)

/-- Claim C9: after one advance pass, every in-grid cell's 4 bytes equal
exactly the alive color or exactly the dead color; cells whose prior color
was garbage are classified dead and rewritten, so one pass normalizes the
board to the two current colors. -/
theorem claim_C9 (img : Image) (settings : GameSettings)
    (hlen : img.data.length = img.width * img.height * 4) :
    ∀ x, x < img.width → ∀ y, y < img.height →
      readColorAt (process_cells img settings).data ((y * img.width + x) * 4) =
          settings.alive_color ∨
      readColorAt (process_cells img settings).data ((y * img.width + x) * 4) =
          settings.dead_color := by
  intro x hx y hy
  rw [advance_cells img settings hlen x y hx hy]
  unfold specNext
  split_ifs
  · exact Or.inl rfl
  · exact Or.inr rfl

theorem claim_C9_witness :
    readColorAt (process_cells witness_img witness_settings).data
        ((0 * witness_img.width + 1) * 4) = witness_settings.alive_color ∨
    readColorAt (process_cells witness_img witness_settings).data
        ((0 * witness_img.width + 1) * 4) = witness_settings.dead_color :=
  claim_C9 witness_img witness_settings (by decide) 1 (by decide) 0 (by decide)

theorem change_color_data (img : Image) (settings : GameSettings)
    (a b : Rgba) :
    (change_color img settings a b).1.data =
      change_color_loop settings a b img.data (img.data.length / 4) := rfl

theorem change_color_settings (img : Image) (settings : GameSettings)
    (a b : Rgba) :
    (change_color img settings a b).2 =
      { settings with alive_color := a, dead_color := b } := rfl

/-- The ChangeColor loop writes cells in index order and classifies each
cell just before writing it, so every cell is classified at its original
color: the loop computes `recolor` of the original cell, cellwise. -/
theorem change_color_loop_spec (settings : GameSettings) (a b : Rgba)
    (m : Nat) : ∀ d0 : List Nat,
    (change_color_loop settings a b d0 m).length = d0.length ∧
    (∀ j, m ≤ j → readColorAt (change_color_loop settings a b d0 m) (j * 4) =
      readColorAt d0 (j * 4)) ∧
    (∀ j, j < m → j * 4 + 3 < d0.length →
      readColorAt (change_color_loop settings a b d0 m) (j * 4) =
        recolor settings a b (readColorAt d0 (j * 4))) := by
  induction m with
  | zero =>
    intro d0
    exact ⟨rfl, fun j _ => rfl, fun j hj _ => absurd hj (by omega)⟩
  | succ m ih =>
    intro d0
    obtain ⟨ihl, ihge, ihlt⟩ := ih d0
    have hstep : change_color_loop settings a b d0 (m + 1) =
        (match State.cell_state
            (readColorAt (change_color_loop settings a b d0 m) (m * 4)) settings with
         | State.ALIVE => writeColorAt (change_color_loop settings a b d0 m) (m * 4) a
         | State.DEAD => writeColorAt (change_color_loop settings a b d0 m) (m * 4) b) := by
      unfold change_color_loop
      rw [List.range_succ, List.foldl_append, List.foldl_cons, List.foldl_nil]
    have hcell : readColorAt (change_color_loop settings a b d0 m) (m * 4) =
        readColorAt d0 (m * 4) := ihge m (by omega)
    cases hs : State.cell_state (readColorAt d0 (m * 4)) settings with
    | ALIVE =>
      have hstep2 : change_color_loop settings a b d0 (m + 1) =
          writeColorAt (change_color_loop settings a b d0 m) (m * 4) a := by
        rw [hstep, hcell, hs]
      rw [hstep2]
      refine ⟨by rw [length_writeColorAt]; exact ihl, ?_, ?_⟩
      · intro j hj
        rw [readColorAt_writeColorAt_ne _ _ (by omega)]
        exact ihge j (by omega)
      · intro j hj hjl
        by_cases hjm : j = m
        · subst hjm
          rw [readColorAt_writeColorAt_self _ _ _ (by rw [ihl]; omega)]
          unfold recolor
          rw [hs]
        · rw [readColorAt_writeColorAt_ne _ _ (by omega)]
          exact ihlt j (by omega) hjl
    | DEAD =>
      have hstep2 : change_color_loop settings a b d0 (m + 1) =
          writeColorAt (change_color_loop settings a b d0 m) (m * 4) b := by
        rw [hstep, hcell, hs]
      rw [hstep2]
      refine ⟨by rw [length_writeColorAt]; exact ihl, ?_, ?_⟩
      · intro j hj
        rw [readColorAt_writeColorAt_ne _ _ (by omega)]
        exact ihge j (by omega)
      · intro j hj hjl
        by_cases hjm : j = m
        · subst hjm
          rw [readColorAt_writeColorAt_self _ _ _ (by rw [ihl]; omega)]
          unfold recolor
          rw [hs]
        · rw [readColorAt_writeColorAt_ne _ _ (by omega)]
          exact ihlt j (by omega) hjl

/-- Claim C4: for distinct new colors, ChangeColor rewrites every cell that
was alive under the old alive_color to the new alive color and every other
cell to the new dead color, and the settings colors are updated only after
the loop, so classification of every cell uses the pre-update colors (the
right-hand side classifies with the old `settings`). -/
theorem claim_C4 (img : Image) (settings : GameSettings) (a b : Rgba)
    (_hab : a ≠ b)
    (hlen : img.data.length = img.width * img.height * 4) :
    (change_color img settings a b).1.width = img.width ∧
    (change_color img settings a b).1.height = img.height ∧
    (change_color img settings a b).1.data.length = img.data.length ∧
    (change_color img settings a b).2 =
      { settings with alive_color := a, dead_color := b } ∧
    ∀ x, x < img.width → ∀ y, y < img.height →
      readColorAt (change_color img settings a b).1.data ((y * img.width + x) * 4) =
        (if aliveCell img settings x y then a else b) := by
  obtain ⟨hl, hge, hlt⟩ :=
    change_color_loop_spec settings a b (img.data.length / 4) img.data
  refine ⟨rfl, rfl, by rw [change_color_data]; exact hl, change_color_settings img settings a b, ?_⟩
  intro x hx y hy
  have hn : img.data.length / 4 = img.width * img.height := by omega
  have hj : y * img.width + x < img.width * img.height := cell_index_lt hx hy
  rw [change_color_data, hlt (y * img.width + x) (by omega) (by omega)]
  unfold recolor
  by_cases hal : aliveCell img settings x y
  · rw [if_pos hal]
    unfold aliveCell at hal
    rw [(cell_state_alive_iff _ settings).mpr hal]
  · rw [if_neg hal]
    unfold aliveCell at hal
    rw [cell_state_eq_dead _ _ hal]

theorem claim_C4_witness :
    (change_color witness_img witness_settings ⟨7, 7, 7, 7⟩ ⟨8, 8, 8, 8⟩).1.width =
        witness_img.width ∧
    (change_color witness_img witness_settings ⟨7, 7, 7, 7⟩ ⟨8, 8, 8, 8⟩).1.height =
        witness_img.height ∧
    (change_color witness_img witness_settings ⟨7, 7, 7, 7⟩ ⟨8, 8, 8, 8⟩).1.data.length =
        witness_img.data.length ∧
    (change_color witness_img witness_settings ⟨7, 7, 7, 7⟩ ⟨8, 8, 8, 8⟩).2 =
      { witness_settings with alive_color := ⟨7, 7, 7, 7⟩, dead_color := ⟨8, 8, 8, 8⟩ } ∧
    ∀ x, x < witness_img.width → ∀ y, y < witness_img.height →
      readColorAt (change_color witness_img witness_settings ⟨7, 7, 7, 7⟩ ⟨8, 8, 8, 8⟩).1.data
          ((y * witness_img.width + x) * 4) =
        (if aliveCell witness_img witness_settings x y then ⟨7, 7, 7, 7⟩ else ⟨8, 8, 8, 8⟩) :=
  claim_C4 witness_img witness_settings _ _ (by decide) (by decide)

/-- Claim C2, counterexample: a `ChangeColor(c, c)` request reaching the
manager (`handle_ui_events`) is not rejected: on a concrete 2 x 1 board it
changes the board bytes and the settings. -/
theorem claim_C2_counterexample :
    (change_color witness_img witness_settings c2_color c2_color).1.data ≠
        witness_img.data ∧
    (change_color witness_img witness_settings c2_color c2_color).2 ≠
        witness_settings := by
  decide

/-- Claim C2 (amended): the rejection of `ChangeColor(c, c)` lives at the
UI emission site, not in the manager: `egui_init` never emits a
`ChangeColor` event whose new alive and dead colors coincide, so no such
request reaches `handle_ui_events` from the UI; the manager itself applies
a `ChangeColor(c, c)` request unguarded (see the counterexample). -/
theorem claim_C2_amended (settings : GameSettings) (c : Rgba) :
    egui_change_color_event settings c c = none := by
  unfold egui_change_color_event
  rw [if_neg]
  rintro ⟨-, hne⟩
  exact hne rfl

----------------------------------------------------------------------
-- Characterization of the Random seed
----------------------------------------------------------------------

theorem seed_random_eq (img : Image) (settings : GameSettings) (rand : Nat → Bool) :
    seed_random img settings rand =
      { img with data := ((List.range (img.data.length / 4)).foldl
          (writeStep (fun i => if rand i then some settings.alive_color else none))
          img.data) } := by
  unfold seed_random
  dsimp only
  congr 1
  apply foldl_funext
  intro d i
  show (if rand i then writeColorAt d (i * 4) settings.alive_color else d) =
    writeStep (fun i => if rand i then some settings.alive_color else none) d i
  unfold writeStep
  beta_reduce
  cases rand i <;> simp

theorem seed_random_length (img : Image) (settings : GameSettings)
    (rand : Nat → Bool) :
    (seed_random img settings rand).data.length = img.data.length := by
  rw [seed_random_eq]
  exact foldl_writeStep_length _ _ _

theorem seed_random_cells (img : Image) (settings : GameSettings)
    (rand : Nat → Bool)
    (hlen : img.data.length = img.width * img.height * 4)
    (x y : Nat) (hx : x < img.width) (hy : y < img.height) :
    readColorAt (seed_random img settings rand).data ((y * img.width + x) * 4) =
      (if rand (y * img.width + x) then settings.alive_color
       else readColorAt img.data ((y * img.width + x) * 4)) := by
  have hn : img.data.length / 4 = img.width * img.height := by omega
  have hj := cell_index_lt hx hy
  rw [seed_random_eq]
  show readColorAt ((List.range (img.data.length / 4)).foldl
    (writeStep (fun i => if rand i then some settings.alive_color else none))
    img.data) ((y * img.width + x) * 4) = _
  rw [hn, foldl_writeStep_lt _ _ _ _ hj (by omega)]
  cases rand (y * img.width + x) <;> simp

/-- Claim C10: the Random seed writes the alive color exactly to the cells
whose random sample selects them and leaves every other cell's bytes
unchanged — it never writes the dead color — so pre-existing content of
non-selected cells (including stale alive or garbage cells) persists
through a Random seed. -/
theorem claim_C10 (img : Image) (settings : GameSettings) (rand : Nat → Bool)
    (hseed : settings.seed = Seed.Random)
    (hlen : img.data.length = img.width * img.height * 4) :
    (seed img settings rand).width = img.width ∧
    (seed img settings rand).height = img.height ∧
    (seed img settings rand).data.length = img.data.length ∧
    ∀ x, x < img.width → ∀ y, y < img.height →
      readColorAt (seed img settings rand).data ((y * img.width + x) * 4) =
        (if rand (y * img.width + x) then settings.alive_color
         else readColorAt img.data ((y * img.width + x) * 4)) := by
  have hsr : seed img settings rand = seed_random img settings rand := by
    unfold seed
    rw [hseed]
  rw [hsr]
  exact ⟨rfl, rfl, seed_random_length img settings rand,
    fun x hx y hy => seed_random_cells img settings rand hlen x y hx hy⟩

theorem claim_C10_witness :
    (seed witness_img witness_settings (fun i => i == 0)).width = witness_img.width ∧
    (seed witness_img witness_settings (fun i => i == 0)).height = witness_img.height ∧
    (seed witness_img witness_settings (fun i => i == 0)).data.length =
        witness_img.data.length ∧
    ∀ x, x < witness_img.width → ∀ y, y < witness_img.height →
      readColorAt (seed witness_img witness_settings (fun i => i == 0)).data
          ((y * witness_img.width + x) * 4) =
        (if (y * witness_img.width + x) == 0 then witness_settings.alive_color
         else readColorAt witness_img.data ((y * witness_img.width + x) * 4)) :=
  claim_C10 witness_img witness_settings (fun i => i == 0) (by decide) (by decide)

theorem applyOptWrites_flatMap {α : Type} (d : List Nat) (l : List α)
    (f : α → List (Nat × Option Rgba)) :
    applyOptWrites d (l.flatMap f) =
      l.foldl (fun acc a => applyOptWrites acc (f a)) d := by
  rw [applyOptWrites, foldl_flatMap_eq]
  rfl

/-- The source's nested placement loop, as a write list. -/
theorem placement_foldl_eq (w : Nat) (values : List (List Nat))
    (xs ys xl yl : Nat) (d0 : List Nat) :
    (List.range yl).foldl (fun d yy =>
      (List.range xl).foldl (fun d jj =>
        ((((d.set ((ys + yy) * w * 4 + (xs + jj) * 4)
            ((values.getD yy []).getD (jj * 4) 0)).set
            ((ys + yy) * w * 4 + (xs + jj) * 4 + 1)
            ((values.getD yy []).getD (jj * 4 + 1) 0)).set
            ((ys + yy) * w * 4 + (xs + jj) * 4 + 2)
            ((values.getD yy []).getD (jj * 4 + 2) 0)).set
            ((ys + yy) * w * 4 + (xs + jj) * 4 + 3)
            ((values.getD yy []).getD (jj * 4 + 3) 0))) d) d0 =
    applyOptWrites d0 ((List.range yl).flatMap (fun yy =>
      (List.range xl).map (fun jj =>
        ((ys + yy) * w + (xs + jj),
         some (readColorAt (values.getD yy []) (jj * 4)))))) := by
  rw [applyOptWrites_flatMap]
  apply foldl_funext
  intro d yy
  rw [← foldl_writes_eq]
  apply foldl_funext
  intro d2 jj
  show _ = writeColorAt d2 (((ys + yy) * w + (xs + jj)) * 4)
    (readColorAt (values.getD yy []) (jj * 4))
  have hoff : (ys + yy) * w * 4 + (xs + jj) * 4 = ((ys + yy) * w + (xs + jj)) * 4 := by
    ring
  rw [hoff]
  rfl

theorem seed_gun_eq (img : Image) (settings : GameSettings)
    (gun : List (List Nat)) :
    seed_gun img settings gun =
      { img with data := applyOptWrites img.data (gunWrites img settings gun) } := by
  unfold seed_gun
  dsimp only
  congr 1
  exact placement_foldl_eq img.width (gun_to_buff_values settings gun) _ _ _ _ img.data

theorem seed_gun_width (img : Image) (settings : GameSettings)
    (gun : List (List Nat)) : (seed_gun img settings gun).width = img.width := rfl

theorem seed_gun_height (img : Image) (settings : GameSettings)
    (gun : List (List Nat)) : (seed_gun img settings gun).height = img.height := rfl

theorem seed_gun_length (img : Image) (settings : GameSettings)
    (gun : List (List Nat)) :
    (seed_gun img settings gun).data.length = img.data.length := by
  rw [seed_gun_eq]
  exact length_applyOptWrites _ _

theorem length_color_bytes (settings : GameSettings) (v : Nat) :
    (color_bytes settings v).length = 4 := by
  unfold color_bytes
  split_ifs <;> rfl

theorem gun_to_buff_values_getD (settings : GameSettings)
    (gun : List (List Nat)) (yy : Nat) :
    (gun_to_buff_values settings gun).getD yy [] =
      (gun.getD yy []).flatMap (color_bytes settings) :=
  List.getD_map gun [] (fun row => row.flatMap (color_bytes settings))

theorem readColor_row (settings : GameSettings) (row : List Nat) (jj : Nat)
    (hjj : jj < row.length) :
    readColorAt (row.flatMap (color_bytes settings)) (jj * 4) =
      (if row.getD jj 0 = 1 then settings.alive_color else settings.dead_color) := by
  have hcb : color_bytes settings =
      (fun v => ((if v = 1 then settings.alive_color else settings.dead_color) : Rgba).bytes) := by
    funext v
    unfold color_bytes Rgba.bytes
    split_ifs <;> rfl
  rw [hcb, readColorAt_flatMap_bytes (fun v => if v = 1 then settings.alive_color
    else settings.dead_color) row 0 jj hjj]

/-- The glider-gun seed, cell by cell, for a board at least as large as
the pattern: the box `[x_start, x_start + pw) x [y_start, y_start + ph)`
is fully overwritten (pattern 1s with the alive color, 0s with the dead
color), and every cell outside the box keeps its old bytes. -/
theorem seed_gun_cells (img : Image) (settings : GameSettings)
    (gun : List (List Nat)) (pw ph : Nat)
    (hph : gun.length = ph) (hphpos : 0 < ph)
    (hpw : ∀ row ∈ gun, row.length = pw)
    (hlen : img.data.length = img.width * img.height * 4)
    (hw : pw ≤ img.width) (hh : ph ≤ img.height)
    (x y : Nat) (hx : x < img.width) (hy : y < img.height) :
    readColorAt (seed_gun img settings gun).data ((y * img.width + x) * 4) =
      (if gun_x_start img gun ≤ x ∧ x < gun_x_start img gun + pw ∧
          gun_y_start img gun ≤ y ∧ y < gun_y_start img gun + ph then
        gunColor settings gun (y - gun_y_start img gun) (x - gun_x_start img gun)
      else readColorAt img.data ((y * img.width + x) * 4)) := by
  have hhead : (gun.headD []).length = pw := by
    cases gun with
    | nil => simp at hph; omega
    | cons r t => exact hpw r (List.mem_cons_self r t)
  have hxlen : gun_x_len img gun = pw := by
    unfold gun_x_len
    rw [hhead]
    by_cases hp2 : pw % 2 ≠ 0
    · rw [if_pos hp2]; omega
    · rw [if_neg hp2]; omega
  have hylen : gun_y_len img gun = ph := by
    unfold gun_y_len
    rw [hph]
    by_cases hp2 : ph % 2 ≠ 0
    · rw [if_pos hp2]; omega
    · rw [if_neg hp2]; omega
  have hxfit : gun_x_start img gun + pw ≤ img.width := by
    unfold gun_x_start
    rw [hhead]
    omega
  have hyfit : gun_y_start img gun + ph ≤ img.height := by
    unfold gun_y_start
    rw [hph]
    omega
  have hj : y * img.width + x < img.width * img.height := cell_index_lt hx hy
  rw [seed_gun_eq]
  show readColorAt (applyOptWrites img.data (gunWrites img settings gun))
    ((y * img.width + x) * 4) = _
  by_cases hbox : gun_x_start img gun ≤ x ∧ x < gun_x_start img gun + pw ∧
      gun_y_start img gun ≤ y ∧ y < gun_y_start img gun + ph
  · rw [if_pos hbox]
    obtain ⟨hb1, hb2, hb3, hb4⟩ := hbox
    have hyy : y - gun_y_start img gun < ph := by omega
    have hjj : x - gun_x_start img gun < pw := by omega
    have hrow : (gun.getD (y - gun_y_start img gun) []).length = pw := by
      refine hpw _ ?_
      rw [List.getD_eq_getElem _ _ (by omega)]
      exact List.getElem_mem _
    have hval : readColorAt ((gun_to_buff_values settings gun).getD
        (y - gun_y_start img gun) []) ((x - gun_x_start img gun) * 4) =
        gunColor settings gun (y - gun_y_start img gun) (x - gun_x_start img gun) := by
      rw [gun_to_buff_values_getD, readColor_row settings _ _ (by omega)]
      rfl
    refine readColorAt_applyOptWrites_of_written _ _ _ _ ?_ (by omega) ?_
    · unfold gunWrites
      rw [List.mem_flatMap]
      refine ⟨y - gun_y_start img gun, by rw [List.mem_range]; omega, ?_⟩
      rw [List.mem_map]
      refine ⟨x - gun_x_start img gun, by rw [List.mem_range]; omega, ?_⟩
      rw [hval]
      have e1 : gun_y_start img gun + (y - gun_y_start img gun) = y := by omega
      have e2 : gun_x_start img gun + (x - gun_x_start img gun) = x := by omega
      rw [e1, e2]
    · intro w' hmem hpos
      unfold gunWrites at hmem
      rw [List.mem_flatMap] at hmem
      obtain ⟨yy, hyymem, hmem2⟩ := hmem
      rw [List.mem_map] at hmem2
      obtain ⟨jj, hjjmem, hw'⟩ := hmem2
      rw [List.mem_range, hylen] at hyymem
      rw [List.mem_range, hxlen] at hjjmem
      subst hw'
      simp only at hpos ⊢
      have hinj := @grid_index_inj img.width (gun_x_start img gun + jj)
        (gun_y_start img gun + yy) x y (by omega) hx hpos
      obtain ⟨hy1, hx1⟩ := hinj
      have eyy : yy = y - gun_y_start img gun := by omega
      have ejj : jj = x - gun_x_start img gun := by omega
      subst eyy ejj
      exact Or.inr (by rw [hval])
  · rw [if_neg hbox]
    refine readColorAt_applyOptWrites_of_not_written _ _ _ ?_
    intro w' hmem hpos
    unfold gunWrites at hmem
    rw [List.mem_flatMap] at hmem
    obtain ⟨yy, hyymem, hmem2⟩ := hmem
    rw [List.mem_map] at hmem2
    obtain ⟨jj, hjjmem, hw'⟩ := hmem2
    rw [List.mem_range, hylen] at hyymem
    rw [List.mem_range, hxlen] at hjjmem
    subst hw'
    simp only at hpos
    have hinj := @grid_index_inj img.width (gun_x_start img gun + jj)
      (gun_y_start img gun + yy) x y (by omega) hx hpos
    obtain ⟨hy1, hx1⟩ := hinj
    exact (hbox ⟨by omega, by omega, by omega, by omega⟩).elim

theorem gun_x_len_eq (img : Image) (gun : List (List Nat)) (pw : Nat)
    (hhead : (gun.headD []).length = pw) (hw : pw ≤ img.width) :
    gun_x_len img gun = pw := by
  unfold gun_x_len
  rw [hhead]
  by_cases hp2 : pw % 2 ≠ 0
  · rw [if_pos hp2]; omega
  · rw [if_neg hp2]; omega

theorem gun_y_len_eq (img : Image) (gun : List (List Nat)) (ph : Nat)
    (hph : gun.length = ph) (hh : ph ≤ img.height) :
    gun_y_len img gun = ph := by
  unfold gun_y_len
  rw [hph]
  by_cases hp2 : ph % 2 ≠ 0
  · rw [if_pos hp2]; omega
  · rw [if_neg hp2]; omega

/-- Claim C3, counterexample: with the claimed formula
`end = start + size + (1 if size is odd else 0)`, the Gosper gun's 9-row
(odd) bounding box on a 36 x 11 board spans rows `[1, 1 + 9 + 1) = [1, 11)`,
so the claim asserts cell `(0, 10)` is written explicitly (to the alive or
dead color).  The code's box spans rows `[1, 10)` only: after seeding, cell
`(0, 10)` still holds its prior garbage bytes `[7,7,7,7]`, which equal
neither the alive nor the dead color. -/
theorem claim_C3_counterexample :
    (c3_img.height / 2 - 9 / 2 ≤ 10 ∧ 10 < c3_img.height / 2 - 9 / 2 + 9 + 1) ∧
    readColorAt (seed c3_img c3_settings (fun _ => false)).data
        ((10 * c3_img.width + 0) * 4) = ⟨7, 7, 7, 7⟩ ∧
    (⟨7, 7, 7, 7⟩ : Rgba) ≠ c3_settings.alive_color ∧
    (⟨7, 7, 7, 7⟩ : Rgba) ≠ c3_settings.dead_color := by
  refine ⟨by decide, ?_, by decide, by decide⟩
  have hseed : seed c3_img c3_settings (fun _ => false) =
      seed_gun c3_img c3_settings glider_gun_gosper := rfl
  rw [hseed]
  rw [seed_gun_cells c3_img c3_settings glider_gun_gosper 36 9 (by decide) (by decide)
    (by decide) (by decide) (by decide) (by decide) 0 10 (by decide) (by decide)]
  rw [if_neg (by decide)]
  exact readColorAt_flatMap_bytes (fun _ => (⟨7, 7, 7, 7⟩ : Rgba))
    (List.range (36 * 11)) 0 (10 * 36 + 0) (by decide)

/-- Claim C3 (amended): for the Gosper (9 x 36) and Simkin (20 x 33) guns
on a board at least as large as the pattern, the bounding box is placed at
`start = center - size/2` (integer division) in each axis and spans exactly
`size` cells — the code's `end = center + size/2 + (1 if size is odd else
0)`, which equals `start + size` (not `start + size + 1` for odd sizes) —
and every cell inside the box, both the pattern's 1s and 0s, is written
explicitly (1s to alive_color, 0s to dead_color), fully overwriting the
box, while every cell outside it keeps its old bytes. -/
theorem claim_C3 (gun : List (List Nat)) (pw ph : Nat)
    (hgun : (gun = glider_gun_gosper ∧ pw = 36 ∧ ph = 9) ∨
            (gun = glider_gun_simkin ∧ pw = 33 ∧ ph = 20))
    (img : Image) (settings : GameSettings)
    (hlen : img.data.length = img.width * img.height * 4)
    (hw : pw ≤ img.width) (hh : ph ≤ img.height) :
    gun_x_start img gun = img.width / 2 - pw / 2 ∧
    gun_y_start img gun = img.height / 2 - ph / 2 ∧
    gun_x_len img gun = pw ∧
    gun_y_len img gun = ph ∧
    ∀ x, x < img.width → ∀ y, y < img.height →
      readColorAt (seed_gun img settings gun).data ((y * img.width + x) * 4) =
        (if gun_x_start img gun ≤ x ∧ x < gun_x_start img gun + pw ∧
            gun_y_start img gun ≤ y ∧ y < gun_y_start img gun + ph then
          gunColor settings gun (y - gun_y_start img gun) (x - gun_x_start img gun)
        else readColorAt img.data ((y * img.width + x) * 4)) := by
  have hhead : (gun.headD []).length = pw := by
    rcases hgun with ⟨rfl, rfl, rfl⟩ | ⟨rfl, rfl, rfl⟩ <;> decide
  have hph : gun.length = ph := by
    rcases hgun with ⟨rfl, rfl, rfl⟩ | ⟨rfl, rfl, rfl⟩ <;> decide
  have hphpos : 0 < ph := by
    rcases hgun with ⟨-, -, rfl⟩ | ⟨-, -, rfl⟩ <;> decide
  have hpw : ∀ row ∈ gun, row.length = pw := by
    rcases hgun with ⟨rfl, rfl, rfl⟩ | ⟨rfl, rfl, rfl⟩ <;> decide
  refine ⟨by unfold gun_x_start; rw [hhead], by unfold gun_y_start; rw [hph],
    gun_x_len_eq img gun pw hhead hw, gun_y_len_eq img gun ph hph hh, ?_⟩
  intro x hx y hy
  exact seed_gun_cells img settings gun pw ph hph hphpos hpw hlen hw hh x y hx hy

theorem claim_C3_witness :
    gun_x_start c3_witness_img glider_gun_gosper = c3_witness_img.width / 2 - 36 / 2 ∧
    gun_y_start c3_witness_img glider_gun_gosper = c3_witness_img.height / 2 - 9 / 2 ∧
    gun_x_len c3_witness_img glider_gun_gosper = 36 ∧
    gun_y_len c3_witness_img glider_gun_gosper = 9 ∧
    ∀ x, x < c3_witness_img.width → ∀ y, y < c3_witness_img.height →
      readColorAt (seed_gun c3_witness_img c3_settings glider_gun_gosper).data
          ((y * c3_witness_img.width + x) * 4) =
        (if gun_x_start c3_witness_img glider_gun_gosper ≤ x ∧
            x < gun_x_start c3_witness_img glider_gun_gosper + 36 ∧
            gun_y_start c3_witness_img glider_gun_gosper ≤ y ∧
            y < gun_y_start c3_witness_img glider_gun_gosper + 9 then
          gunColor c3_settings glider_gun_gosper
            (y - gun_y_start c3_witness_img glider_gun_gosper)
            (x - gun_x_start c3_witness_img glider_gun_gosper)
        else readColorAt c3_witness_img.data ((y * c3_witness_img.width + x) * 4)) :=
  claim_C3 glider_gun_gosper 36 9 (Or.inl ⟨rfl, rfl, rfl⟩) c3_witness_img c3_settings
    (by decide) (by decide) (by decide)

----------------------------------------------------------------------
-- Characterization of create_board, seed dispatch and ChangeCellSize
----------------------------------------------------------------------

theorem create_board_length (settings : GameSettings) (ww wh : Nat) :
    (create_board settings ww wh).1.data.length =
      (create_board settings ww wh).1.width * (create_board settings ww wh).1.height * 4 := by
  show ((List.range (ww / settings.cell_size * (wh / settings.cell_size))).flatMap
    (fun _ => settings.dead_color.bytes)).length = _
  rw [length_flatMap_four (fun _ => settings.dead_color.bytes) (fun _ => rfl),
    List.length_range]
  show 4 * (ww / settings.cell_size * (wh / settings.cell_size)) =
    ww / settings.cell_size * (wh / settings.cell_size) * 4
  ring

theorem create_board_cells (settings : GameSettings) (ww wh x y : Nat)
    (hx : x < (create_board settings ww wh).1.width)
    (hy : y < (create_board settings ww wh).1.height) :
    readColorAt (create_board settings ww wh).1.data
        ((y * (create_board settings ww wh).1.width + x) * 4) = settings.dead_color := by
  have hj : y * (create_board settings ww wh).1.width + x <
      (List.range (ww / settings.cell_size * (wh / settings.cell_size))).length := by
    rw [List.length_range]
    exact cell_index_lt hx hy
  exact readColorAt_flatMap_bytes (fun _ => settings.dead_color) _ 0 _ hj

theorem seed_width (img : Image) (settings : GameSettings) (rand : Nat → Bool) :
    (seed img settings rand).width = img.width := by
  unfold seed
  cases settings.seed <;> rfl

theorem seed_height (img : Image) (settings : GameSettings) (rand : Nat → Bool) :
    (seed img settings rand).height = img.height := by
  unfold seed
  cases settings.seed <;> rfl

theorem seed_eq_random (img : Image) (settings : GameSettings) (rand : Nat → Bool)
    (hs : settings.seed = Seed.Random) :
    seed img settings rand = seed_random img settings rand := by
  unfold seed
  rw [hs]

theorem seed_eq_gosper (img : Image) (settings : GameSettings) (rand : Nat → Bool)
    (hs : settings.seed = Seed.GosperGliderGun) :
    seed img settings rand = seed_gun img settings glider_gun_gosper := by
  unfold seed
  rw [hs]

theorem seed_eq_simkin (img : Image) (settings : GameSettings) (rand : Nat → Bool)
    (hs : settings.seed = Seed.SimkinGliderGun) :
    seed img settings rand = seed_gun img settings glider_gun_simkin := by
  unfold seed
  rw [hs]

theorem seed_eq_spaceship (img : Image) (settings : GameSettings) (rand : Nat → Bool)
    (hs : settings.seed = Seed.Spaceship) :
    seed img settings rand = img := by
  unfold seed
  rw [hs]

theorem seed_length (img : Image) (settings : GameSettings) (rand : Nat → Bool) :
    (seed img settings rand).data.length = img.data.length := by
  cases hs : settings.seed
  · rw [seed_eq_random img settings rand hs]
    exact seed_random_length img settings rand
  · rw [seed_eq_spaceship img settings rand hs]
  · rw [seed_eq_gosper img settings rand hs]
    exact seed_gun_length img settings glider_gun_gosper
  · rw [seed_eq_simkin img settings rand hs]
    exact seed_gun_length img settings glider_gun_simkin

theorem seedWritten_random (settings : GameSettings) (w h : Nat)
    (rand : Nat → Bool) (x y : Nat) (hs : settings.seed = Seed.Random)
    (hr : rand (y * w + x) = true) : seedWritten settings w h rand x y := by
  unfold seedWritten
  rw [hs]
  exact hr

theorem seedWritten_gosper (settings : GameSettings) (w h : Nat)
    (rand : Nat → Bool) (x y : Nat) (hs : settings.seed = Seed.GosperGliderGun)
    (hbox : w / 2 - 36 / 2 ≤ x ∧ x < w / 2 - 36 / 2 + 36 ∧
      h / 2 - 9 / 2 ≤ y ∧ y < h / 2 - 9 / 2 + 9) :
    seedWritten settings w h rand x y := by
  unfold seedWritten
  rw [hs]
  exact hbox

theorem seedWritten_simkin (settings : GameSettings) (w h : Nat)
    (rand : Nat → Bool) (x y : Nat) (hs : settings.seed = Seed.SimkinGliderGun)
    (hbox : w / 2 - 33 / 2 ≤ x ∧ x < w / 2 - 33 / 2 + 33 ∧
      h / 2 - 20 / 2 ≤ y ∧ y < h / 2 - 20 / 2 + 20) :
    seedWritten settings w h rand x y := by
  unfold seedWritten
  rw [hs]
  exact hbox

/-- Every cell of a freshly created and reseeded board is the dead color,
except the cells the seed writes. -/
theorem seed_create_cells (settings : GameSettings) (ww wh : Nat)
    (rand : Nat → Bool)
    (hgos : settings.seed = Seed.GosperGliderGun →
      36 ≤ (create_board settings ww wh).1.width ∧
      9 ≤ (create_board settings ww wh).1.height)
    (hsim : settings.seed = Seed.SimkinGliderGun →
      33 ≤ (create_board settings ww wh).1.width ∧
      20 ≤ (create_board settings ww wh).1.height)
    (x y : Nat) (hx : x < (create_board settings ww wh).1.width)
    (hy : y < (create_board settings ww wh).1.height) :
    readColorAt (seed (create_board settings ww wh).1 settings rand).data
        ((y * (create_board settings ww wh).1.width + x) * 4) = settings.dead_color ∨
      seedWritten settings (create_board settings ww wh).1.width
        (create_board settings ww wh).1.height rand x y := by
  have hlen := create_board_length settings ww wh
  cases hs : settings.seed
  case Random =>
    rw [seed_eq_random _ settings rand hs,
      seed_random_cells (create_board settings ww wh).1 settings rand hlen x y hx hy]
    by_cases hr : rand (y * (create_board settings ww wh).1.width + x) = true
    · rw [if_pos hr]
      exact Or.inr (seedWritten_random settings _ _ rand x y hs hr)
    · rw [if_neg hr]
      exact Or.inl (create_board_cells settings ww wh x y hx hy)
  case Spaceship =>
    rw [seed_eq_spaceship _ settings rand hs]
    exact Or.inl (create_board_cells settings ww wh x y hx hy)
  case GosperGliderGun =>
    have hfit := hgos hs
    have hgx : gun_x_start (create_board settings ww wh).1 glider_gun_gosper =
        (create_board settings ww wh).1.width / 2 - 36 / 2 := by
      unfold gun_x_start
      rw [show (glider_gun_gosper.headD []).length = 36 from by decide]
    have hgy : gun_y_start (create_board settings ww wh).1 glider_gun_gosper =
        (create_board settings ww wh).1.height / 2 - 9 / 2 := by
      unfold gun_y_start
      rw [show glider_gun_gosper.length = 9 from by decide]
    rw [seed_eq_gosper _ settings rand hs,
      seed_gun_cells (create_board settings ww wh).1 settings glider_gun_gosper 36 9
        (by decide) (by decide) (by decide) hlen hfit.1 hfit.2 x y hx hy]
    by_cases hbox : gun_x_start (create_board settings ww wh).1 glider_gun_gosper ≤ x ∧
        x < gun_x_start (create_board settings ww wh).1 glider_gun_gosper + 36 ∧
        gun_y_start (create_board settings ww wh).1 glider_gun_gosper ≤ y ∧
        y < gun_y_start (create_board settings ww wh).1 glider_gun_gosper + 9
    · rw [if_pos hbox]
      refine Or.inr (seedWritten_gosper settings _ _ rand x y hs ?_)
      rw [hgx, hgy] at hbox
      exact hbox
    · rw [if_neg hbox]
      exact Or.inl (create_board_cells settings ww wh x y hx hy)
  case SimkinGliderGun =>
    have hfit := hsim hs
    have hgx : gun_x_start (create_board settings ww wh).1 glider_gun_simkin =
        (create_board settings ww wh).1.width / 2 - 33 / 2 := by
      unfold gun_x_start
      rw [show (glider_gun_simkin.headD []).length = 33 from by decide]
    have hgy : gun_y_start (create_board settings ww wh).1 glider_gun_simkin =
        (create_board settings ww wh).1.height / 2 - 20 / 2 := by
      unfold gun_y_start
      rw [show glider_gun_simkin.length = 20 from by decide]
    rw [seed_eq_simkin _ settings rand hs,
      seed_gun_cells (create_board settings ww wh).1 settings glider_gun_simkin 33 20
        (by decide) (by decide) (by decide) hlen hfit.1 hfit.2 x y hx hy]
    by_cases hbox : gun_x_start (create_board settings ww wh).1 glider_gun_simkin ≤ x ∧
        x < gun_x_start (create_board settings ww wh).1 glider_gun_simkin + 33 ∧
        gun_y_start (create_board settings ww wh).1 glider_gun_simkin ≤ y ∧
        y < gun_y_start (create_board settings ww wh).1 glider_gun_simkin + 20
    · rw [if_pos hbox]
      refine Or.inr (seedWritten_simkin settings _ _ rand x y hs ?_)
      rw [hgx, hgy] at hbox
      exact hbox
    · rw [if_neg hbox]
      exact Or.inl (create_board_cells settings ww wh x y hx hy)

/-- Claim C5: ChangeCellSize(newSize) discards the board and builds a
fresh one with rows = floor(viewport_width / newSize) and columns =
floor(viewport_height / newSize); immediately afterward the returned board
dimensions reflect these values, the returned settings have cell_size =
newSize (all other fields unchanged, as the single settings record is
replaced together with the board handle and dimensions), and every cell of
the fresh board equals dead_color except the cells written by re-applying
the current seed kind.  When the current seed kind is one of the gun
patterns, the new board must be at least as large as the pattern (the spec
leaves smaller boards undefined and the source indexes out of bounds). -/
theorem claim_C5 (settings : GameSettings) (win_width win_height new_size : Nat)
    (h1 : 1 ≤ new_size) (h255 : new_size ≤ 255) (rand : Nat → Bool)
    (hgos : settings.seed = Seed.GosperGliderGun →
      36 ≤ win_width / new_size ∧ 9 ≤ win_height / new_size)
    (hsim : settings.seed = Seed.SimkinGliderGun →
      33 ≤ win_width / new_size ∧ 20 ≤ win_height / new_size) :
    (change_cell_size settings win_width win_height new_size rand).1.width =
        win_width / new_size ∧
    (change_cell_size settings win_width win_height new_size rand).1.height =
        win_height / new_size ∧
    (change_cell_size settings win_width win_height new_size rand).2.1 =
        win_width / new_size ∧
    (change_cell_size settings win_width win_height new_size rand).2.2.1 =
        win_height / new_size ∧
    (change_cell_size settings win_width win_height new_size rand).2.2.2 =
        { settings with cell_size := new_size } ∧
    (change_cell_size settings win_width win_height new_size rand).1.data.length =
        win_width / new_size * (win_height / new_size) * 4 ∧
    ∀ x, x < win_width / new_size → ∀ y, y < win_height / new_size →
      readColorAt (change_cell_size settings win_width win_height new_size rand).1.data
          ((y * (win_width / new_size) + x) * 4) = settings.dead_color ∨
        seedWritten settings (win_width / new_size) (win_height / new_size)
          rand x y := by
  refine ⟨?_, ?_, rfl, rfl, rfl, ?_, ?_⟩
  · show (seed (create_board { settings with cell_size := new_size }
      win_width win_height).1 { settings with cell_size := new_size } rand).width = _
    rw [seed_width]
    rfl
  · show (seed (create_board { settings with cell_size := new_size }
      win_width win_height).1 { settings with cell_size := new_size } rand).height = _
    rw [seed_height]
    rfl
  · show (seed (create_board { settings with cell_size := new_size }
      win_width win_height).1 { settings with cell_size := new_size } rand).data.length = _
    rw [seed_length, create_board_length]
    rfl
  · intro x hx y hy
    exact seed_create_cells { settings with cell_size := new_size }
      win_width win_height rand hgos hsim x y hx hy

theorem claim_C5_witness :
    (change_cell_size witness_settings 8 4 2 (fun _ => false)).1.width = 8 / 2 ∧
    (change_cell_size witness_settings 8 4 2 (fun _ => false)).1.height = 4 / 2 ∧
    (change_cell_size witness_settings 8 4 2 (fun _ => false)).2.1 = 8 / 2 ∧
    (change_cell_size witness_settings 8 4 2 (fun _ => false)).2.2.1 = 4 / 2 ∧
    (change_cell_size witness_settings 8 4 2 (fun _ => false)).2.2.2 =
        { witness_settings with cell_size := 2 } ∧
    (change_cell_size witness_settings 8 4 2 (fun _ => false)).1.data.length =
        8 / 2 * (4 / 2) * 4 ∧
    ∀ x, x < 8 / 2 → ∀ y, y < 4 / 2 →
      readColorAt (change_cell_size witness_settings 8 4 2 (fun _ => false)).1.data
          ((y * (8 / 2) + x) * 4) = witness_settings.dead_color ∨
        seedWritten witness_settings (8 / 2) (4 / 2) (fun _ => false) x y :=
  claim_C5 witness_settings 8 4 2 (by decide) (by decide) (fun _ => false)
    (by decide) (by decide)

/-- Claim C7: `get_pixel` returns the cell's 4 color bytes exactly when
`0 <= x < rows` and `0 <= y < columns` and returns `none` for any
coordinate outside that range; a `set` (the bounds-checked write path of
`get_pixel_mut`) on an out-of-range coordinate is a silent no-op leaving
the image — every byte of its buffer included — unchanged. -/
theorem claim_C7 (img : Image) (x y : Int) (col : Rgba) :
    ((img.get_pixel x y).isSome = true ↔
      (0 ≤ x ∧ x < (img.width : Int) ∧ 0 ≤ y ∧ y < (img.height : Int))) ∧
    (0 ≤ x → x < (img.width : Int) → 0 ≤ y → y < (img.height : Int) →
      img.get_pixel x y =
        some (readColorAt img.data ((y.toNat * img.width + x.toNat) * 4))) ∧
    (¬ (0 ≤ x ∧ x < (img.width : Int) ∧ 0 ≤ y ∧ y < (img.height : Int)) →
      img.set_pixel x y col = img) := by
  refine ⟨?_, ?_, ?_⟩
  · rw [get_pixel_eq]
    split_ifs with h
    · exact iff_of_true rfl h
    · refine iff_of_false ?_ h
      intro hcon
      exact Bool.noConfusion hcon
  · intro h1 h2 h3 h4
    rw [get_pixel_eq, if_pos ⟨h1, h2, h3, h4⟩]
  · intro h
    unfold Image.set_pixel set_pixel_data
    rw [if_pos (by omega)]

theorem claim_C7_witness :
    witness_img.get_pixel 1 0 =
      some (readColorAt witness_img.data
        (((0 : Int).toNat * witness_img.width + (1 : Int).toNat) * 4)) ∧
    witness_img.set_pixel 5 0 c2_color = witness_img :=
  ⟨(claim_C7 witness_img 1 0 c2_color).2.1 (by decide) (by decide) (by decide)
      (by decide),
   (claim_C7 witness_img 5 0 c2_color).2.2 (by decide)⟩

----------------------------------------------------------------------
-- Characterization of brush painting
----------------------------------------------------------------------

theorem toNat_pos_eq (w : Nat) (x y : Int) (h1 : 0 ≤ x) (h3 : 0 ≤ y) :
    ((y * w + x) * 4).toNat = (y.toNat * w + x.toNat) * 4 := by
  obtain ⟨xn, rfl⟩ := Int.eq_ofNat_of_zero_le h1
  obtain ⟨yn, rfl⟩ := Int.eq_ofNat_of_zero_le h3
  have hcast : ((yn : Int) * (w : Int) + (xn : Int)) * 4 =
      (((yn * w + xn) * 4 : Nat) : Int) := by
    push_cast
    ring
  rw [hcast, Int.toNat_natCast]
  simp

theorem paint_data_eq (width height : Nat) (settings : GameSettings)
    (posx posy : Int) (size : Nat) (d0 : List Nat) :
    paint_data width height settings posx posy size d0 =
      applyOptWrites d0 (paintWrites width height settings posx posy size) := by
  unfold paint_data paintWrites
  rw [applyOptWrites_flatMap]
  apply foldl_funext
  intro d bi
  rw [← foldl_writes_eq]
  apply foldl_funext
  intro d2 bj
  by_cases hdist : (posx + ((bi : Int) - (size : Int)) - posx) ^ 2 +
      (posy + ((bj : Int) - (size : Int)) - posy) ^ 2 ≤ (size : Int) ^ 2
  · rw [if_pos hdist]
    unfold set_pixel_data
    by_cases hb : (width : Int) ≤ posx + ((bi : Int) - (size : Int)) ∨
        posx + ((bi : Int) - (size : Int)) < 0 ∨
        (height : Int) ≤ posy + ((bj : Int) - (size : Int)) ∨
        posy + ((bj : Int) - (size : Int)) < 0
    · rw [if_pos hb, if_neg (fun hc => hc.2 hb)]
    · rw [if_neg hb, if_pos ⟨hdist, hb⟩]
      show writeColorAt d2 (((posy + ((bj : Int) - (size : Int))) * width +
        (posx + ((bi : Int) - (size : Int)))) * 4).toNat settings.alive_color =
        writeColorAt d2 (((posy + ((bj : Int) - (size : Int))).toNat * width +
          (posx + ((bi : Int) - (size : Int))).toNat) * 4) settings.alive_color
      rw [toNat_pos_eq width _ _ (by omega) (by omega)]
  · rw [if_neg hdist, if_neg (fun hc => hdist hc.1)]

theorem paint_dims (img : Image) (settings : GameSettings) (posx posy : Int)
    (size : Nat) :
    (paint img settings posx posy size).width = img.width ∧
    (paint img settings posx posy size).height = img.height := ⟨rfl, rfl⟩

theorem paint_length (img : Image) (settings : GameSettings) (posx posy : Int)
    (size : Nat) :
    (paint img settings posx posy size).data.length = img.data.length := by
  show (paint_data img.width img.height settings posx posy size img.data).length = _
  rw [paint_data_eq]
  exact length_applyOptWrites _ _

/-- Brush painting, cell by cell: an in-grid cell is set to the alive
color iff its offset from the brush center satisfies the circle test, and
keeps its old bytes otherwise. -/
theorem paint_cells (img : Image) (settings : GameSettings) (posx posy : Int)
    (size : Nat) (hlen : img.data.length = img.width * img.height * 4)
    (x y : Nat) (hx : x < img.width) (hy : y < img.height) :
    readColorAt (paint img settings posx posy size).data ((y * img.width + x) * 4) =
      (if ((x : Int) - posx) ^ 2 + ((y : Int) - posy) ^ 2 ≤ (size : Int) ^ 2 then
        settings.alive_color
      else readColorAt img.data ((y * img.width + x) * 4)) := by
  have hj : y * img.width + x < img.width * img.height := cell_index_lt hx hy
  show readColorAt (paint_data img.width img.height settings posx posy size img.data)
    ((y * img.width + x) * 4) = _
  rw [paint_data_eq]
  have hagree : ∀ w' ∈ paintWrites img.width img.height settings posx posy size,
      w'.1 = y * img.width + x →
      w'.2 = none ∨ w'.2 = some settings.alive_color := by
    intro w' hmem _
    unfold paintWrites at hmem
    rw [List.mem_flatMap] at hmem
    obtain ⟨bi, _, hmem2⟩ := hmem
    rw [List.mem_map] at hmem2
    obtain ⟨bj, _, hw'⟩ := hmem2
    subst hw'
    split_ifs
    · exact Or.inr rfl
    · exact Or.inl rfl
  by_cases hdist : ((x : Int) - posx) ^ 2 + ((y : Int) - posy) ^ 2 ≤ (size : Int) ^ 2
  · rw [if_pos hdist]
    have hdx1 : -(size : Int) ≤ (x : Int) - posx := by
      nlinarith [sq_nonneg ((y : Int) - posy), sq_nonneg ((x : Int) - posx + size)]
    have hdx2 : (x : Int) - posx ≤ (size : Int) := by
      nlinarith [sq_nonneg ((y : Int) - posy), sq_nonneg ((x : Int) - posx - size)]
    have hdy1 : -(size : Int) ≤ (y : Int) - posy := by
      nlinarith [sq_nonneg ((x : Int) - posx), sq_nonneg ((y : Int) - posy + size)]
    have hdy2 : (y : Int) - posy ≤ (size : Int) := by
      nlinarith [sq_nonneg ((x : Int) - posx), sq_nonneg ((y : Int) - posy - size)]
    refine readColorAt_applyOptWrites_of_written _ _ _ _ ?_ (by omega) hagree
    unfold paintWrites
    rw [List.mem_flatMap]
    refine ⟨((x : Int) - posx + size).toNat, by rw [List.mem_range]; omega, ?_⟩
    rw [List.mem_map]
    refine ⟨((y : Int) - posy + size).toNat, by rw [List.mem_range]; omega, ?_⟩
    have ex : posx + (((((x : Int) - posx + size).toNat : Nat) : Int) - (size : Int)) =
        (x : Int) := by omega
    have ey : posy + (((((y : Int) - posy + size).toNat : Nat) : Int) - (size : Int)) =
        (y : Int) := by omega
    rw [ex, ey]
    rw [if_pos ⟨by
        have e1 : (x : Int) - posx = (x : Int) - posx := rfl
        have e2 : posx + ((x : Int) - posx) - posx = (x : Int) - posx := by ring
        have e3 : posy + ((y : Int) - posy) - posy = (y : Int) - posy := by ring
        rw [show ((x : Int) - posx) ^ 2 = ((x : Int) - posx) ^ 2 from rfl]
        calc ((x : Int) - posx) ^ 2 + ((y : Int) - posy) ^ 2 ≤ (size : Int) ^ 2 := hdist,
      by omega⟩]
    rw [Int.toNat_natCast, Int.toNat_natCast]
  · rw [if_neg hdist]
    refine readColorAt_applyOptWrites_of_not_written _ _ _ ?_
    intro w' hmem hpos
    unfold paintWrites at hmem
    rw [List.mem_flatMap] at hmem
    obtain ⟨bi, _, hmem2⟩ := hmem
    rw [List.mem_map] at hmem2
    obtain ⟨bj, _, hw'⟩ := hmem2
    subst hw'
    by_cases hcond : ((posx + ((bi : Int) - (size : Int)) - posx) ^ 2 +
          (posy + ((bj : Int) - (size : Int)) - posy) ^ 2 ≤ (size : Int) ^ 2) ∧
        ¬ ((img.width : Int) ≤ posx + ((bi : Int) - (size : Int)) ∨
           posx + ((bi : Int) - (size : Int)) < 0 ∨
           (img.height : Int) ≤ posy + ((bj : Int) - (size : Int)) ∨
           posy + ((bj : Int) - (size : Int)) < 0)
    · exfalso
      rw [if_pos hcond] at hpos
      simp only at hpos
      obtain ⟨hc1, hc2⟩ := hcond
      have hpx : (posx + ((bi : Int) - (size : Int))).toNat < img.width := by omega
      have hinj := grid_index_inj (w := img.width) hpx hx hpos
      obtain ⟨hy1, hx1⟩ := hinj
      have ebi : (bi : Int) - (size : Int) = (x : Int) - posx := by omega
      have ebj : (bj : Int) - (size : Int) = (y : Int) - posy := by omega
      rw [ebi, ebj] at hc1
      have e2 : posx + ((x : Int) - posx) - posx = (x : Int) - posx := by ring
      have e3 : posy + ((y : Int) - posy) - posy = (y : Int) - posy := by ring
      rw [e2, e3] at hc1
      exact hdist hc1
    · rw [if_neg hcond]

/-- Claim C6: painting at board center `(cx, cy)` with radius `r` in
`[0, 255]` sets to the alive color exactly those on-grid cells `(x, y)`
whose offset `(dx, dy) = (x - cx, y - cy)` satisfies the circle test
`dx^2 + dy^2 <= r^2` (the exact value of the source's `f32` test
`sqrt(dx^2+dy^2) <= r` on this range; the test also forces
`|dx| <= r` and `|dy| <= r`, the loop bounds), leaves every other cell's
bytes unchanged, skips out-of-range targets via the bounds-checked set,
and in particular painting an in-bounds `(x, y)` with radius 0 sets cell
`(x, y)` to the alive color, which an immediate read returns exactly. -/
theorem claim_C6 (img : Image) (settings : GameSettings) (posx posy : Int)
    (size : Nat) (hsize : size ≤ 255)
    (hlen : img.data.length = img.width * img.height * 4) :
    (paint img settings posx posy size).width = img.width ∧
    (paint img settings posx posy size).height = img.height ∧
    (paint img settings posx posy size).data.length = img.data.length ∧
    (∀ x, x < img.width → ∀ y, y < img.height →
      readColorAt (paint img settings posx posy size).data ((y * img.width + x) * 4) =
        (if ((x : Int) - posx) ^ 2 + ((y : Int) - posy) ^ 2 ≤ (size : Int) ^ 2 then
          settings.alive_color
        else readColorAt img.data ((y * img.width + x) * 4))) ∧
    (∀ x, x < img.width → ∀ y, y < img.height →
      readColorAt (paint img settings (x : Int) (y : Int) 0).data
          ((y * img.width + x) * 4) = settings.alive_color) := by
  refine ⟨rfl, rfl, paint_length img settings posx posy size, ?_, ?_⟩
  · intro x hx y hy
    exact paint_cells img settings posx posy size hlen x y hx hy
  · intro x hx y hy
    rw [paint_cells img settings (x : Int) (y : Int) 0 hlen x y hx hy,
      if_pos (by simp)]

theorem claim_C6_witness :
    (paint witness_img witness_settings 0 0 1).width = witness_img.width ∧
    (paint witness_img witness_settings 0 0 1).height = witness_img.height ∧
    (paint witness_img witness_settings 0 0 1).data.length = witness_img.data.length ∧
    (∀ x, x < witness_img.width → ∀ y, y < witness_img.height →
      readColorAt (paint witness_img witness_settings 0 0 1).data
          ((y * witness_img.width + x) * 4) =
        (if ((x : Int) - 0) ^ 2 + ((y : Int) - 0) ^ 2 ≤ ((1 : Nat) : Int) ^ 2 then
          witness_settings.alive_color
        else readColorAt witness_img.data ((y * witness_img.width + x) * 4))) ∧
    (∀ x, x < witness_img.width → ∀ y, y < witness_img.height →
      readColorAt (paint witness_img witness_settings (x : Int) (y : Int) 0).data
          ((y * witness_img.width + x) * 4) = witness_settings.alive_color) :=
  claim_C6 witness_img witness_settings 0 0 1 (by decide) (by decide)

theorem patCount_congr (P Q : Int → Int → Prop)
    [∀ u v, Decidable (P u v)] [∀ u v, Decidable (Q u v)]
    (h : ∀ u v, P u v ↔ Q u v) (x y : Int) :
    patCount P x y = patCount Q x y := by
  unfold patCount
  have e : ∀ u v, (if P u v then 1 else 0) = (if Q u v then 1 else 0) := by
    intro u v
    by_cases hp : P u v
    · rw [if_pos hp, if_pos ((h u v).mp hp)]
    · rw [if_neg hp, if_neg (fun hq => hp ((h u v).mpr hq))]
  rw [e, e, e, e, e, e, e, e]

theorem specNeighbours_eq_patCount (img : Image) (settings : GameSettings)
    (x y : Int) :
    specNeighbours img settings x y = patCount (specAliveI img settings) x y := rfl

/-- Applying the Conway step to a horizontal 3-line yields the vertical
3-line with the same center, pointwise. -/
theorem hline_step (cx cy x y : Int) :
    ((hlineP cx cy x y ∧
        (patCount (hlineP cx cy) x y = 2 ∨ patCount (hlineP cx cy) x y = 3)) ∨
     (¬ hlineP cx cy x y ∧ patCount (hlineP cx cy) x y = 3)) ↔
      vlineP cx cy x y := by
  unfold patCount hlineP vlineP
  split_ifs <;> omega

/-- Applying the Conway step to a vertical 3-line yields the horizontal
3-line with the same center, pointwise. -/
theorem vline_step (cx cy x y : Int) :
    ((vlineP cx cy x y ∧
        (patCount (vlineP cx cy) x y = 2 ∨ patCount (vlineP cx cy) x y = 3)) ∨
     (¬ vlineP cx cy x y ∧ patCount (vlineP cx cy) x y = 3)) ↔
      hlineP cx cy x y := by
  unfold patCount hlineP vlineP
  split_ifs <;> omega

/-- Advancing a board whose alive set is exactly an in-grid pattern `P`
produces the board whose alive set is the Conway step `T` of `P`. -/
theorem advance_pattern (img : Image) (settings : GameSettings)
    (P T : Int → Int → Prop)
    [∀ u v, Decidable (P u v)] [∀ u v, Decidable (T u v)]
    (hlen : img.data.length = img.width * img.height * 4)
    (hne : settings.alive_color ≠ settings.dead_color)
    (hgrid : ∀ u v, P u v →
      0 ≤ u ∧ u < (img.width : Int) ∧ 0 ≤ v ∧ v < (img.height : Int))
    (hcells : ∀ x, x < img.width → ∀ y, y < img.height →
      readColorAt img.data ((y * img.width + x) * 4) =
        (if P (x : Int) (y : Int) then settings.alive_color else settings.dead_color))
    (hstep : ∀ x y : Int,
      ((P x y ∧ (patCount P x y = 2 ∨ patCount P x y = 3)) ∨
       (¬ P x y ∧ patCount P x y = 3)) ↔ T x y) :
    ∀ x, x < img.width → ∀ y, y < img.height →
      readColorAt (process_cells img settings).data ((y * img.width + x) * 4) =
        (if T (x : Int) (y : Int) then settings.alive_color
         else settings.dead_color) := by
  have halive : ∀ u v : Int, specAliveI img settings u v ↔ P u v := by
    intro u v
    unfold specAliveI
    constructor
    · rintro ⟨h1, h2, h3, h4, h5⟩
      unfold aliveCell at h5
      have hu : ((u.toNat : Nat) : Int) = u := by omega
      have hv : ((v.toNat : Nat) : Int) = v := by omega
      rw [hcells u.toNat (by omega) v.toNat (by omega), hu, hv] at h5
      by_cases hp : P u v
      · exact hp
      · rw [if_neg hp] at h5
        exact absurd h5.symm hne
    · intro hp
      obtain ⟨h1, h2, h3, h4⟩ := hgrid u v hp
      refine ⟨h1, h2, h3, h4, ?_⟩
      unfold aliveCell
      have hu : ((u.toNat : Nat) : Int) = u := by omega
      have hv : ((v.toNat : Nat) : Int) = v := by omega
      rw [hcells u.toNat (by omega) v.toNat (by omega), hu, hv, if_pos hp]
  intro x hx y hy
  rw [advance_cells img settings hlen x y hx hy]
  unfold specNext
  have hcnt : specNeighbours img settings (x : Int) (y : Int) =
      patCount P (x : Int) (y : Int) := by
    rw [specNeighbours_eq_patCount]
    exact patCount_congr _ _ halive (x : Int) (y : Int)
  have halx : aliveCell img settings x y ↔ P (x : Int) (y : Int) := by
    constructor
    · intro h5
      unfold aliveCell at h5
      rw [hcells x hx y hy] at h5
      by_cases hp : P (x : Int) (y : Int)
      · exact hp
      · rw [if_neg hp] at h5
        exact absurd h5.symm hne
    · intro hp
      unfold aliveCell
      rw [hcells x hx y hy, if_pos hp]
  have hcond : ((aliveCell img settings x y ∧
      (specNeighbours img settings (x : Int) (y : Int) = 2 ∨
       specNeighbours img settings (x : Int) (y : Int) = 3)) ∨
      (¬ aliveCell img settings x y ∧
       specNeighbours img settings (x : Int) (y : Int) = 3)) ↔
      T (x : Int) (y : Int) := by
    rw [hcnt, halx]
    exact hstep (x : Int) (y : Int)
  by_cases hT : T (x : Int) (y : Int)
  · rw [if_pos (hcond.mpr hT), if_pos hT]
  · rw [if_neg (fun hc => hT (hcond.mp hc)), if_neg hT]

/-- Byte-level equality of two buffers from cellwise equality. -/
theorem data_eq_of_cells_eq {w h : Nat} (d1 d2 : List Nat)
    (hl1 : d1.length = w * h * 4) (hl2 : d2.length = w * h * 4)
    (hc : ∀ x, x < w → ∀ y, y < h →
      readColorAt d1 ((y * w + x) * 4) = readColorAt d2 ((y * w + x) * 4)) :
    d1 = d2 := by
  apply List.ext_getElem?
  intro b
  by_cases hb : b < w * h * 4
  · have hw : 0 < w := by
      by_contra hw0
      have hweq : w = 0 := by omega
      subst hweq
      omega
    have hj : b / 4 < w * h := by omega
    have hx : b / 4 % w < w := Nat.mod_lt _ hw
    have hy : b / 4 / w < h := by
      rw [Nat.div_lt_iff_lt_mul hw]
      have hcm : h * w = w * h := Nat.mul_comm h w
      omega
    have hjeq : b / 4 / w * w + b / 4 % w = b / 4 := by
      have hdm := Nat.div_add_mod (b / 4) w
      have hcm : b / 4 / w * w = w * (b / 4 / w) := Nat.mul_comm _ _
      omega
    have hcell := hc (b / 4 % w) hx (b / 4 / w) hy
    rw [hjeq] at hcell
    have hbyte : d1.getD b 0 = d2.getD b 0 := by
      rcases (by omega : b % 4 = 0 ∨ b % 4 = 1 ∨ b % 4 = 2 ∨ b % 4 = 3) with
        h4 | h4 | h4 | h4
      · rw [show b = b / 4 * 4 from by omega]
        exact congrArg Rgba.r hcell
      · rw [show b = b / 4 * 4 + 1 from by omega]
        exact congrArg Rgba.g hcell
      · rw [show b = b / 4 * 4 + 2 from by omega]
        exact congrArg Rgba.b hcell
      · rw [show b = b / 4 * 4 + 3 from by omega]
        exact congrArg Rgba.a hcell
    rw [List.getElem?_eq_getElem (show b < d1.length by omega),
      List.getElem?_eq_getElem (show b < d2.length by omega)]
    exact congrArg some
      ((List.getD_eq_getElem d1 0 _).symm.trans
        (hbyte.trans (List.getD_eq_getElem d2 0 _)))
  · rw [List.getElem?_eq_none (by omega), List.getElem?_eq_none (by omega)]

/-- Claim C8: a board containing exactly a blinker (three alive cells in a
straight line, horizontal or vertical, everything else dead, the line at
least one cell away from every grid edge) returns, after two advance
passes, a board byte-identical to the original. -/
theorem claim_C8 (img : Image) (settings : GameSettings) (cx cy : Nat)
    (hlen : img.data.length = img.width * img.height * 4)
    (hcx1 : 1 ≤ cx) (hcx2 : cx + 1 < img.width)
    (hcy1 : 1 ≤ cy) (hcy2 : cy + 1 < img.height)
    (hne : settings.alive_color ≠ settings.dead_color)
    (hpat :
      (∀ x, x < img.width → ∀ y, y < img.height →
        readColorAt img.data ((y * img.width + x) * 4) =
          (if hlineP (cx : Int) (cy : Int) (x : Int) (y : Int) then
            settings.alive_color else settings.dead_color)) ∨
      (∀ x, x < img.width → ∀ y, y < img.height →
        readColorAt img.data ((y * img.width + x) * 4) =
          (if vlineP (cx : Int) (cy : Int) (x : Int) (y : Int) then
            settings.alive_color else settings.dead_color))) :
    process_cells (process_cells img settings) settings = img := by
  have hgrid_h : ∀ u v, hlineP (cx : Int) (cy : Int) u v →
      0 ≤ u ∧ u < (img.width : Int) ∧ 0 ≤ v ∧ v < (img.height : Int) := by
    intro u v hp
    unfold hlineP at hp
    omega
  have hgrid_v : ∀ u v, vlineP (cx : Int) (cy : Int) u v →
      0 ≤ u ∧ u < (img.width : Int) ∧ 0 ≤ v ∧ v < (img.height : Int) := by
    intro u v hp
    unfold vlineP at hp
    omega
  have hlen1 : (process_cells img settings).data.length =
      (process_cells img settings).width * (process_cells img settings).height * 4 := by
    rw [process_cells_length, process_cells_width, process_cells_height]
    exact hlen
  rcases hpat with hh | hv
  · have h1 := advance_pattern img settings (hlineP (cx : Int) (cy : Int))
      (vlineP (cx : Int) (cy : Int)) hlen hne hgrid_h hh
      (fun x y => hline_step (cx : Int) (cy : Int) x y)
    have h2 := advance_pattern (process_cells img settings) settings
      (vlineP (cx : Int) (cy : Int)) (hlineP (cx : Int) (cy : Int)) hlen1 hne
      hgrid_v h1 (fun x y => vline_step (cx : Int) (cy : Int) x y)
    refine Image.ext rfl rfl ?_
    refine data_eq_of_cells_eq (w := img.width) (h := img.height) _ _ ?_ hlen ?_
    · rw [process_cells_length, process_cells_length]
      exact hlen
    · intro x hx y hy
      exact (h2 x hx y hy).trans (hh x hx y hy).symm
  · have h1 := advance_pattern img settings (vlineP (cx : Int) (cy : Int))
      (hlineP (cx : Int) (cy : Int)) hlen hne hgrid_v hv
      (fun x y => vline_step (cx : Int) (cy : Int) x y)
    have h2 := advance_pattern (process_cells img settings) settings
      (hlineP (cx : Int) (cy : Int)) (vlineP (cx : Int) (cy : Int)) hlen1 hne
      hgrid_h h1 (fun x y => hline_step (cx : Int) (cy : Int) x y)
    refine Image.ext rfl rfl ?_
    refine data_eq_of_cells_eq (w := img.width) (h := img.height) _ _ ?_ hlen ?_
    · rw [process_cells_length, process_cells_length]
      exact hlen
    · intro x hx y hy
      exact (h2 x hx y hy).trans (hv x hx y hy).symm

theorem claim_C8_witness :
    process_cells (process_cells blinker_img witness_settings) witness_settings =
      blinker_img :=
  claim_C8 blinker_img witness_settings 2 2 (by decide) (by decide) (by decide)
    (by decide) (by decide) (by decide) (Or.inl (by decide))

end GoL
